import Mathlib

/-!
Verification of the Transfer Orchestration Engine of nexus-terminal
(backend service `TransfersService`, file `transfers.service.ts`).

The TypeScript service is shallowly embedded as pure Lean functions over an
explicit task state:

* `SubStatus` / `TaskStatus` mirror the SubTask and Task status enums.
* `updateSubTaskStatus`, `updateOverallTaskStatus`,
  `updateOverallTaskStatusBasedOnSubTasks` and `finalizeOverallTaskStatus`
  are direct translations of the service methods of the same names.
* `initiateNewTransfer` builds the cross-product SubTask list.
* `cancelTransferTask` models the cancel operation over a service registry.
* A small-step scheduler model (`Sched`, `SStep`) embeds the concurrent
  sub-task launching loop of `processTransferTask`.
* `runTransfer` embeds the control flow of `executeRemoteTransferOnSource`
  over an environment of remote-operation outcomes, recording the temporary
  key upload/delete effects in a trace.

Timestamps (`new Date()`) are modelled as `Nat` values passed explicitly;
UUIDs are modelled as caller-supplied `Nat` identifiers.
-/

namespace Nexus

/-- SubTask statuses: `queued -> connecting -> transferring -> completed | failed | cancelled`. -/
inductive SubStatus where
  | queued
  | connecting
  | transferring
  | completed
  | failed
  | cancelled
deriving DecidableEq

/-- Overall task statuses. -/
inductive TaskStatus where
  | queued
  | inProgress
  | completed
  | failed
  | partiallyCompleted
  | cancelling
  | cancelled
deriving DecidableEq

/-- Transfer tool actually used by a SubTask (`rsync` or `scp`). -/
inductive CmdType where
  | rsync
  | scp
deriving DecidableEq

/-- Tool preference from the request payload (`auto` / `rsync` / `scp`). -/
inductive Pref where
  | auto
  | rsync
  | scp
deriving DecidableEq

/-- One source item of the request: name, absolute path, file-or-directory tag. -/
structure SourceItem where
  name : String
  path : String
  isDir : Bool
deriving DecidableEq

/-- The originating request (`InitiateTransferPayload`). -/
structure Payload where
  sourceConnectionId : Nat
  connectionIds : List Nat
  sourceItems : List SourceItem
  remoteTargetPath : String
  transferMethod : Pref
deriving DecidableEq

/-- A `TransferSubTask` record. -/
structure SubTask where
  subTaskId : Nat
  connectionId : Nat
  sourceItemName : String
  status : SubStatus
  progress : Option Int
  message : Option String
  startTime : Nat
  endTime : Option Nat
  transferMethodUsed : Option CmdType
deriving DecidableEq

/-- A `TransferTask` record. -/
structure Task where
  taskId : Nat
  status : TaskStatus
  userId : Nat
  createdAt : Nat
  updatedAt : Nat
  subTasks : List SubTask
  payload : Payload
  overallProgress : Option Int
deriving DecidableEq

/-- In-place mutation of the first list element satisfying `p`
(the effect of `array.find(...)` followed by field assignments in TS). -/
def updateFirst (p : α → Bool) (f : α → α) : List α → List α
  | [] => []
  | x :: xs => if p x then f x :: xs else x :: updateFirst p f xs

/-- The per-status counters accumulated by the `forEach` switch in
`updateOverallTaskStatusBasedOnSubTasks`. -/
structure StatusCounts where
  completedCount : Nat
  failedCount : Nat
  inProgressCount : Nat
  queuedCount : Nat
  totalProgress : Int
deriving DecidableEq

/-- One iteration of the counting `switch` statement (a `cancelled` SubTask
matches no case and is counted nowhere). -/
def countStep (acc : StatusCounts) (st : SubTask) : StatusCounts :=
  match st.status with
  | .completed =>
      { acc with completedCount := acc.completedCount + 1,
                 totalProgress := acc.totalProgress + 100 }
  | .failed => { acc with failedCount := acc.failedCount + 1 }
  | .transferring =>
      { acc with inProgressCount := acc.inProgressCount + 1,
                 totalProgress := acc.totalProgress +
                   (match st.progress with | some p => p | none => 0) }
  | .connecting =>
      { acc with inProgressCount := acc.inProgressCount + 1,
                 totalProgress := acc.totalProgress +
                   (match st.progress with | some p => p | none => 5) }
  | .queued => { acc with queuedCount := acc.queuedCount + 1 }
  | .cancelled => acc

/-- The counters for a whole SubTask list. -/
def countSubTasks (subs : List SubTask) : StatusCounts :=
  subs.foldl countStep ⟨0, 0, 0, 0, 0⟩

/-- The new overall status computed from the counters
(the if/else chain of `updateOverallTaskStatusBasedOnSubTasks`). -/
def rollupNewStatus (n : Nat) (cnt : StatusCounts) : TaskStatus :=
  if cnt.failedCount = n then .failed
  else if cnt.completedCount = n then .completed
  else if 0 < cnt.failedCount ∧ cnt.completedCount + cnt.failedCount = n then
    .partiallyCompleted
  else if 0 < cnt.inProgressCount ∨
          (0 < cnt.queuedCount ∧ (0 < cnt.failedCount ∨ 0 < cnt.completedCount)) then
    .inProgress
  else if cnt.queuedCount = n then .queued
  else if 0 < cnt.completedCount ∧ 0 < cnt.queuedCount ∧
          cnt.failedCount = 0 ∧ cnt.inProgressCount = 0 then
    .partiallyCompleted
  else .inProgress

/-- `updateOverallTaskStatusBasedOnSubTasks`: with no SubTasks only
`overallProgress` is zeroed; otherwise status and progress are recomputed
from the SubTask counters and `updatedAt` is refreshed.  The recomputed
status is assigned directly, without the terminal-status guard of
`updateOverallTaskStatus`. -/
def updateOverallTaskStatusBasedOnSubTasks (t : Task) (now : Nat) : Task :=
  let n := t.subTasks.length
  if n = 0 then { t with overallProgress := some 0 }
  else
    let cnt := countSubTasks t.subTasks
    { t with
      overallProgress := some (Int.ediv (2 * cnt.totalProgress + n) (2 * n)),
      status := rollupNewStatus n cnt,
      updatedAt := now }

/-- The field assignments performed by `updateSubTaskStatus` once its guard
has passed: status, clamped progress, message, and `endTime` (set only on a
transition to completed/failed when not already set). -/
def applyFields (ns : SubStatus) (prog : Option Int) (msg : Option String)
    (now : Nat) (st : SubTask) : SubTask :=
  let st1 := { st with status := ns }
  let st2 := match prog with
    | some p => { st1 with progress := some (min 100 (max 0 p)) }
    | none => st1
  let st3 := match msg with
    | some m => { st2 with message := some m }
    | none => st2
  if (ns = .completed ∨ ns = .failed) ∧ st3.endTime = (none : Option Nat) then
    { st3 with endTime := some now }
  else st3

/-- `updateSubTaskStatus`: looks up the SubTask, refuses to overwrite a
completed/failed SubTask with anything other than completed/failed, applies
the field updates, refreshes `updatedAt`, and recomputes the overall task
status from the SubTasks. -/
def updateSubTaskStatus (t : Task) (sid : Nat) (ns : SubStatus)
    (prog : Option Int) (msg : Option String) (now : Nat) : Task :=
  match t.subTasks.find? (fun st => st.subTaskId == sid) with
  | none => t
  | some st =>
    if (st.status = .completed ∨ st.status = .failed) ∧
        ¬(ns = .completed ∨ ns = .failed) then t
    else
      let t1 := { t with
        subTasks := updateFirst (fun s => s.subTaskId == sid)
          (applyFields ns prog msg now) t.subTasks,
        updatedAt := now }
      updateOverallTaskStatusBasedOnSubTasks t1 now

/-- `updateOverallTaskStatus`: a direct status write, ignored when the task
is already in a final state (completed/failed/partially-completed) and the
new status is transient (queued/in-progress). -/
def updateOverallTaskStatus (t : Task) (ns : TaskStatus) (now : Nat) : Task :=
  let isCurrentStatusFinal :=
    t.status = .completed ∨ t.status = .failed ∨ t.status = .partiallyCompleted
  let isNewStatusTransient := ns = .queued ∨ ns = .inProgress
  if isCurrentStatusFinal ∧ isNewStatusTransient then t
  else { t with status := ns, updatedAt := now }

/-- `finalizeOverallTaskStatus`: recomputes the overall status from the
final SubTask states (called from the `finally` of `processTransferTask`). -/
def finalizeOverallTaskStatus (t : Task) (now : Nat) : Task :=
  updateOverallTaskStatusBasedOnSubTasks t now

/-- The cross product of target connection ids and source items over which
`initiateNewTransfer` creates one SubTask each. -/
def crossPairs (connectionIds : List Nat) (items : List SourceItem) :
    List (Nat × SourceItem) :=
  connectionIds.flatMap (fun c => items.map (fun it => (c, it)))

/-- The SubTask list created by `initiateNewTransfer`: one queued SubTask
per (target, item) pair; UUIDs are modelled as positional identifiers. -/
def mkSubTasks (connectionIds : List Nat) (items : List SourceItem)
    (now : Nat) : List SubTask :=
  (crossPairs connectionIds items).enum.map (fun pr =>
    { subTaskId := pr.1, connectionId := pr.2.1,
      sourceItemName := pr.2.2.name, status := .queued,
      progress := none, message := none, startTime := now,
      endTime := none, transferMethodUsed := none })

/-- `initiateNewTransfer`: creates the task in `queued` state with all
SubTasks queued. -/
def initiateNewTransfer (payload : Payload) (userId : Nat) (taskId : Nat)
    (now : Nat) : Task :=
  { taskId := taskId, status := .queued, userId := userId,
    createdAt := now, updatedAt := now,
    subTasks := mkSubTasks payload.connectionIds payload.sourceItems now,
    payload := payload, overallProgress := none }

/-- True when a SubTask status is one of the three terminal states that
`cancelTransferTask` skips. -/
def subTerminal (s : SubStatus) : Prop :=
  s = .completed ∨ s = .failed ∨ s = .cancelled

instance (s : SubStatus) : Decidable (subTerminal s) := by
  unfold subTerminal; infer_instance

/-- Registry state of `TransfersService`: the task map and the
`AbortController` map (taskId paired with its aborted flag). -/
structure ServiceState where
  tasks : List Task
  controllers : List (Nat × Bool)
deriving DecidableEq

/-- Effect of one iteration of the `task.subTasks.forEach` loop in
`cancelTransferTask`: a SubTask that is not completed/failed/cancelled is
moved to `cancelled` through `updateSubTaskStatus` (which also triggers the
overall rollup); terminal SubTasks are left alone. -/
def cancelSubStep (now : Nat) (t : Task) (sid : Nat) : Task :=
  match t.subTasks.find? (fun st => st.subTaskId == sid) with
  | none => t
  | some st =>
    if ¬ subTerminal st.status then
      updateSubTaskStatus t sid .cancelled st.progress
        (some "Cancelled due to parent task cancellation.") now
    else t

/-- The whole `forEach` loop of `cancelTransferTask` over the SubTask list. -/
def cancelAllNonFinalSubs (t : Task) (now : Nat) : Task :=
  (t.subTasks.map (fun st => st.subTaskId)).foldl (cancelSubStep now) t

/-- `cancelTransferTask`: returns false when the task is unknown, not owned
by the caller, or has no `AbortController`; otherwise signals the abort
flag, moves a non-(completed/failed/cancelled) task to `cancelling`, and
cancels every non-terminal SubTask.  Returns the new registry state and the
boolean result. -/
def cancelTransferTask (s : ServiceState) (tid uid now : Nat) :
    ServiceState × Bool :=
  match s.tasks.find? (fun t => t.taskId == tid) with
  | none => (s, false)
  | some task =>
    if task.userId ≠ uid then (s, false)
    else
      match s.controllers.find? (fun c => c.1 == tid) with
      | none => (s, false)
      | some _ =>
        let s1 : ServiceState := { s with
          controllers := updateFirst (fun c => c.1 == tid)
            (fun c => (c.1, true)) s.controllers }
        let t1 :=
          if ¬ (task.status = .completed ∨ task.status = .failed ∨
                task.status = .cancelled) then
            updateOverallTaskStatus task .cancelling now
          else task
        let t2 := cancelAllNonFinalSubs t1 now
        ({ s1 with
           tasks := updateFirst (fun t => t.taskId == tid) (fun _ => t2)
             s1.tasks }, true)

end Nexus

namespace Nexus

/-! ## Scheduler model

Small-step embedding of the concurrent sub-task processing phase of
`processTransferTask` (the promise around `launchNextSubTaskIfPossible`).
Each SubTask slot carries its status together with an execution phase:
`idle` (wrapper not yet started), `running` (wrapper in flight), `done`
(the wrapper's `finally` has run). -/

/-- Execution phase of one SubTask slot in the scheduler. -/
inductive Phase where
  | idle
  | running
  | done
deriving DecidableEq

/-- How the scheduler's completion promise settled. -/
inductive SettleKind where
  | resolved
  | rejected
deriving DecidableEq

/-- One SubTask slot: its status and execution phase. -/
structure SubSlot where
  status : SubStatus
  phase : Phase
deriving DecidableEq

/-- State of the sub-task scheduling phase: the slots, the shared
`currentlyActiveSubTasks` counter, the `currentSubTaskIndex` cursor, the
abort signal, whether `onAbortOverall` is still attached, and whether (and
how) the completion promise has settled. -/
structure Sched where
  subs : List SubSlot
  active : Nat
  nextIdx : Nat
  aborted : Bool
  listener : Bool
  settled : Option SettleKind
deriving DecidableEq

/-- `MAX_CONCURRENT_SUB_TASKS` of `TransfersService`. -/
def MAX_CONCURRENT_SUB_TASKS : Nat := 5

/-- Settle the completion promise: a promise settles only once. -/
def trySettle (k : SettleKind) (s : Sched) : Sched :=
  if s.settled = none then { s with settled := some k, listener := false }
  else s

/-- Modify the element at index `i` (in-place array mutation). -/
def modifyAt (l : List α) (i : Nat) (f : α → α) : List α :=
  match l, i with
  | [], _ => []
  | x :: xs, 0 => f x :: xs
  | x :: xs, n + 1 => x :: modifyAt xs n f

/-- The `while` loop of `launchNextSubTaskIfPossible`: as long as a slot is
free and SubTasks remain, skip already-cancelled SubTasks (resolving when
that exhausts the list with nothing active) and launch the next one,
incrementing the active counter.  `fuel` bounds the iterations; each
iteration advances `nextIdx`, so `subs.length - nextIdx` fuel is exact. -/
def launchGo : Nat → Sched → Sched
  | 0, s => s
  | fuel + 1, s =>
    if h : s.active < MAX_CONCURRENT_SUB_TASKS ∧ s.nextIdx < s.subs.length then
      let slot := s.subs.get ⟨s.nextIdx, h.2⟩
      if slot.status = .cancelled then
        let s1 : Sched := { s with nextIdx := s.nextIdx + 1 }
        let s2 :=
          if s1.nextIdx = s.subs.length ∧ s1.active = 0 then
            trySettle .resolved s1
          else s1
        launchGo fuel s2
      else
        let s1 : Sched := { s with
          active := s.active + 1,
          nextIdx := s.nextIdx + 1,
          subs := modifyAt s.subs s.nextIdx (fun sl => { sl with phase := .running }) }
        launchGo fuel s1
    else s

/-- `launchNextSubTaskIfPossible`: on an aborted signal, launch nothing and
resolve if nothing is active; otherwise run the launch loop and resolve when
everything has been launched and nothing is active. -/
def launchNext (s : Sched) : Sched :=
  if s.aborted then
    if s.active = 0 then trySettle .resolved s else s
  else
    let s1 := launchGo (s.subs.length - s.nextIdx) s
    if s1.nextIdx = s1.subs.length ∧ s1.active = 0 ∧ s1.aborted = false then
      trySettle .resolved s1
    else s1

/-- Status overwrite rule of `updateSubTaskStatus` (only completed/failed
are protected). -/
def guardedSet (cur ns : SubStatus) : SubStatus :=
  if (cur = .completed ∨ cur = .failed) ∧ ¬(ns = .completed ∨ ns = .failed)
  then cur else ns

/-- `cancelTransferTask` status sweep as seen by the scheduler: every slot
not completed/failed/cancelled becomes cancelled. -/
def cancelSlots (subs : List SubSlot) : List SubSlot :=
  subs.map (fun sl =>
    if ¬ subTerminal sl.status then { sl with status := .cancelled } else sl)

/-- Effect of `abortController.abort()` (from `cancelTransferTask`): the
signal is set; `onAbortOverall`, if still attached, fires once and rejects
the completion promise immediately; then the cancel sweep marks the
non-terminal SubTasks cancelled. -/
def abortEffect (s : Sched) : Sched :=
  let s1 : Sched := { s with aborted := true }
  let s2 : Sched :=
    if s1.listener ∧ s1.settled = none then
      { s1 with settled := some .rejected, listener := false }
    else { s1 with listener := false }
  { s2 with subs := cancelSlots s2.subs }

/-- A status update issued by a running wrapper for its own SubTask,
through the `updateSubTaskStatus` guard. -/
def wrapperUpdateEffect (s : Sched) (i : Nat) (ns : SubStatus) : Sched :=
  { s with subs :=
      modifyAt s.subs i (fun sl => { sl with status := guardedSet sl.status ns }) }

/-- The `.finally` attached to each wrapper promise: decrement the active
counter, then resolve if aborted with nothing active, else launch more if
SubTasks remain and the signal is clear, else resolve once nothing is
active. -/
def finishEffect (s : Sched) (i : Nat) : Sched :=
  let s1 : Sched := { s with
    subs := modifyAt s.subs i (fun sl => { sl with phase := .done }),
    active := s.active - 1 }
  if s1.aborted ∧ s1.active = 0 then trySettle .resolved s1
  else if s1.nextIdx < s1.subs.length ∧ s1.aborted = false then launchNext s1
  else if s1.active = 0 then trySettle .resolved s1
  else s1

/-- The phase of slot `i` (used as step premise). -/
def phaseAt (s : Sched) (i : Nat) : Option Phase :=
  (s.subs[i]?).map (fun sl => sl.phase)

/-- The status of slot `i`. -/
def slotStatusAt (s : Sched) (i : Nat) : Option SubStatus :=
  (s.subs[i]?).map (fun sl => sl.status)

/-- Interleaving steps of the scheduling phase: a cancellation abort, a
status update from a running wrapper, or a wrapper finishing (wrappers end
with a terminal SubTask status). -/
inductive SStep : Sched → Sched → Prop where
  | abort (s : Sched) (h : s.aborted = false) : SStep s (abortEffect s)
  | update (s : Sched) (i : Nat) (ns : SubStatus)
      (h : phaseAt s i = some .running) : SStep s (wrapperUpdateEffect s i ns)
  | finish (s : Sched) (i : Nat) (h : phaseAt s i = some .running)
      (hterm : ∃ st, slotStatusAt s i = some st ∧ subTerminal st) :
      SStep s (finishEffect s i)

/-- Initial state of the scheduling promise body: with no SubTasks resolve
at once; if the signal already fired, sweep the statuses and reject;
otherwise launch the first batch. -/
def initSched (sts : List SubStatus) (ab : Bool) : Sched :=
  let base : Sched := { subs := sts.map (fun st => ⟨st, .idle⟩),
                        active := 0, nextIdx := 0, aborted := ab,
                        listener := true, settled := none }
  if sts.length = 0 then trySettle .resolved { base with listener := false }
  else if ab then
    { base with subs := cancelSlots base.subs, settled := some .rejected,
                listener := false }
  else launchNext base

/-- Reachability in the scheduler step relation. -/
inductive SchedReach : Sched → Sched → Prop where
  | refl (s : Sched) : SchedReach s s
  | tail {s t u : Sched} : SchedReach s t → SStep t u → SchedReach s u

end Nexus

namespace Nexus

/-! ## Model of `executeRemoteTransferOnSource`

The remote execution is embedded as a pure function over an environment of
remote-operation outcomes.  The abort signal is modelled by a logical clock:
every awaited remote operation advances the clock by one, and the signal
reads true from `abortAt` on.  The temporary private-key upload and its
deletion are recorded in an effect trace. -/

/-- Authentication method of the target connection. -/
inductive AuthMethod where
  | password
  | key
deriving DecidableEq

/-- Target connection descriptor together with which decrypted credentials
are present. -/
structure TargetInfo where
  name : String
  host : String
  username : String
  port : Option Nat
  auth_method : AuthMethod
  hasPrivateKey : Bool
  hasPassphrase : Bool
  hasPassword : Bool
deriving DecidableEq

/-- Outcome of the transfer command execution on the source host. -/
inductive ExecOutcome where
  | exit (code : Int)
  | timeout
  | streamErr (msg : String)
deriving DecidableEq

/-- Errors thrown inside `executeRemoteTransferOnSource`: a DOMException
`AbortError` or an ordinary `Error`. -/
inductive TErr where
  | abortError (msg : String)
  | error (msg : String)
deriving DecidableEq

/-- Effects on the source host relevant to credential residue: the upload
of the temporary target key, and the deletion attempt for it. -/
inductive TraceEv where
  | uploadKey (path : String)
  | deleteAttempt (path : String) (ok : Bool)
deriving DecidableEq

/-- Environment of remote outcomes for one SubTask execution. -/
structure ExecEnv where
  abortAt : Option Nat
  sshpassPath : Option String
  rsyncPathOnSource : Option String
  scpPathOnSource : Option String
  rsyncPathOnTarget : Option String
  mkdirOk : Bool
  mkdirErrMsg : String
  uploadOk : Bool
  keySuffix : String
  progressEvents : List Int
  execOutcome : ExecOutcome
deriving DecidableEq

/-- The abort signal as read at clock `c`. -/
def sigAborted (env : ExecEnv) (c : Nat) : Bool :=
  match env.abortAt with
  | none => false
  | some a => a ≤ c

/-- Tool selection logic (lines 626-659): `auto` prefers rsync when present
on source and target (one awaited target probe), falling back to scp; a
fixed preference fails when its tool is unavailable. -/
def selectTool (env : ExecEnv) (pref : Pref)
    (rsyncPathOnSource scpPathOnSource : Option String) (_item : SourceItem)
    (c : Nat) : Except (TErr × Nat) (CmdType × Nat) :=
  match pref with
  | .auto =>
    match rsyncPathOnSource with
    | some _ =>
      let c := c + 1
      if sigAborted env c then
        .error (.abortError "Transfer cancelled by user.", c)
      else
        match env.rsyncPathOnTarget with
        | some _ => .ok (.rsync, c)
        | none =>
          match scpPathOnSource with
          | some _ => .ok (.scp, c)
          | none => .error (.error "Neither Rsync nor SCP are available on source (auto mode).", c)
    | none =>
      match scpPathOnSource with
      | some _ => .ok (.scp, c)
      | none => .error (.error "Neither Rsync nor SCP are available on source (auto mode).", c)
  | .rsync =>
    match rsyncPathOnSource with
    | none => .error (.error "Rsync preferred but not available on source.", c)
    | some _ =>
      let c := c + 1
      if sigAborted env c then
        .error (.abortError "Transfer cancelled by user.", c)
      else
        match env.rsyncPathOnTarget with
        | none => .error (.error "Rsync preferred, but not available on target.", c)
        | some _ => .ok (.rsync, c)
  | .scp =>
    match scpPathOnSource with
    | none => .error (.error "SCP preferred but not available on source.", c)
    | some _ => .ok (.scp, c)

/-- Direct field write `subTaskToUpdate.transferMethodUsed = ...`
(line 676; bypasses `updateSubTaskStatus`). -/
def setTransferMethodUsed (t : Task) (sid : Nat) (ct : CmdType) : Task :=
  { t with subTasks :=
      updateFirst (fun s => s.subTaskId == sid) (fun st => { st with transferMethodUsed := some ct }) t.subTasks }

/-- Result of the first phase (tool probing, selection, target directory
creation): the updated task, the clock, the chosen tool and the probed
`sshpass` path — or a thrown error with the state at the throw. -/
def phaseA (env : ExecEnv) (pref : Pref) (item : SourceItem)
    (t : Task) (sid now c : Nat) :
    Except (TErr × Task × Nat) (Task × Nat × CmdType × Option String) :=
  -- line 605: abort check before the try block
  if sigAborted env c then .error (.abortError "Transfer cancelled by user.", t, c)
  else
  let t := updateSubTaskStatus t sid .transferring (some 0)
    (some "Initializing remote transfer") now
  -- line 610
  if sigAborted env c then .error (.abortError "Transfer cancelled by user.", t, c)
  else
  -- awaited probes for sshpass, rsync, scp on the source host
  let c := c + 1
  let sshpassPath := env.sshpassPath
  if sigAborted env c then .error (.abortError "Transfer cancelled by user.", t, c)
  else
  let c := c + 1
  let rsyncPathOnSource := env.rsyncPathOnSource
  if sigAborted env c then .error (.abortError "Transfer cancelled by user.", t, c)
  else
  let c := c + 1
  let scpPathOnSource := env.scpPathOnSource
  if sigAborted env c then .error (.abortError "Transfer cancelled by user.", t, c)
  else
  -- tool selection per preference
  match selectTool env pref rsyncPathOnSource scpPathOnSource item c with
  | .error e => .error (e.1, t, e.2)
  | .ok (cmdType, c) =>
  -- line 661
  if sigAborted env c then .error (.abortError "Transfer cancelled by user.", t, c)
  else
  let t := updateSubTaskStatus t sid .transferring (some 5) (some "Using tool") now
  let t := setTransferMethodUsed t sid cmdType
  let t := updateSubTaskStatus t sid .transferring (some 6)
    (some "Ensuring target directory exists") now
  -- line 684: abort check inside the mkdir try block
  if sigAborted env c then
    let t := updateSubTaskStatus t sid .cancelled none
      (some "Directory creation cancelled") now
    .error (.abortError "Transfer cancelled by user (before mkdir).", t, c)
  else
  -- awaited mkdir on the target host
  let c := c + 1
  if sigAborted env c then
    let t := updateSubTaskStatus t sid .cancelled none
      (some "Directory creation cancelled") now
    .error (.abortError "Mkdir operation cancelled by user.", t, c)
  else if env.mkdirOk = false then
    let t := updateSubTaskStatus t sid .failed none
      (some "Failed to create target directory") now
    .error (.error "Failed to create target directory", t, c)
  else
  -- line 742
  if sigAborted env c then
    .error (.abortError "Transfer cancelled by user (after mkdir attempt).", t, c)
  else
  let t := updateSubTaskStatus t sid .transferring (some 8)
    (some "Target directory ensured") now
  .ok (t, c, cmdType, sshpassPath)

/-- Result of the credential-brokering phase: updated state plus the trace
of key uploads and the temporary key path planted on the source host (set
as soon as the path is chosen, before the upload is awaited). -/
def keyPhase (env : ExecEnv) (target : TargetInfo) (t : Task)
    (_sid _now c : Nat) (sshpassPath : Option String) :
    Except (TErr × Task × Nat × List TraceEv × Option String)
      (Task × Nat × List TraceEv × Option String) :=
  if target.auth_method = .key ∧ target.hasPrivateKey then
    let p := "/tmp/nexus_target_key_" ++ env.keySuffix
    -- awaited SFTP upload (30s timeout folded into uploadOk)
    let c := c + 1
    if env.uploadOk = false then
      .error (.error "SFTP upload of key failed", t, c, [], some p)
    else
      let tr := [TraceEv.uploadKey p]
      if sigAborted env c then
        .error (.abortError "Transfer cancelled by user.", t, c, tr, some p)
      else if target.hasPassphrase ∧ sshpassPath = none then
        .error (.error "Target key has passphrase, but sshpass is not available on source.",
                t, c, tr, some p)
      else .ok (t, c, tr, some p)
  else if target.auth_method = .password ∧ target.hasPassword then
    if sshpassPath = none then
      .error (.error "Target uses password auth, but sshpass is not available on source.",
              t, c, [], none)
    else .ok (t, c, [], none)
  else if target.auth_method = .key ∧ target.hasPrivateKey = false then
    .error (.error "Target connection is key-based but no private key found.",
            t, c, [], none)
  else .ok (t, c, [], none)

/-- One progress report from the command's stdout stream: rsync output is
parsed for a percentage, scp reports a fixed 50%. -/
def progressStep (cmdType : CmdType) (sid now : Nat) (t : Task) (p : Int) : Task :=
  match cmdType with
  | .rsync => updateSubTaskStatus t sid .transferring (some p) none now
  | .scp => updateSubTaskStatus t sid .transferring (some 50) (some "SCP in progress...") now

/-- The command-execution phase (lines 782-869): final abort check, the
awaited remote command with streamed progress, completion on exit code 0,
and errors for nonzero exits, timeouts and stream errors. -/
def execPhase (env : ExecEnv) (cmdType : CmdType) (t : Task)
    (sid now c : Nat) : Except (TErr × Task × Nat) (Task × Nat) :=
  if sigAborted env c then
    .error (.abortError "Transfer cancelled by user.", t, c)
  else
  let t := updateSubTaskStatus t sid .transferring (some 10) (some "Executing") now
  let c := c + 1
  if sigAborted env c then
    .error (.abortError "Command cancelled by user.", t, c)
  else
  let t := env.progressEvents.foldl (progressStep cmdType sid now) t
  match env.execOutcome with
  | .exit code =>
    if code = 0 then
      .ok (updateSubTaskStatus t sid .completed (some 100) (some "Transfer successful.") now, c)
    else .error (.error "Transfer command failed with nonzero exit code", t, c)
  | .timeout => .error (.error "Transfer command timed out", t, c)
  | .streamErr m => .error (.error m, t, c)

/-- Combined result of the body of `executeRemoteTransferOnSource` before
its `finally` block. -/
structure MainRes where
  task : Task
  clock : Nat
  trace : List TraceEv
  tempKey : Option String
  err : Option TErr
deriving DecidableEq

/-- The try-block body of `executeRemoteTransferOnSource`: phase A, then
credential brokering, then command execution.  The upload trace and the
temporary key path flow unchanged from the credential phase. -/
def mainBody (env : ExecEnv) (pref : Pref) (item : SourceItem)
    (target : TargetInfo) (t : Task) (sid now c0 : Nat) : MainRes :=
  match phaseA env pref item t sid now c0 with
  | .error (e, t1, c1) => ⟨t1, c1, [], none, some e⟩
  | .ok (t1, c1, cmdType, sshpassPath) =>
    match keyPhase env target t1 sid now c1 sshpassPath with
    | .error (e, t2, c2, tr, tk) => ⟨t2, c2, tr, tk, some e⟩
    | .ok (t2, c2, tr, tk) =>
      match execPhase env cmdType t2 sid now c2 with
      | .error (e, t3, c3) => ⟨t3, c3, tr, tk, some e⟩
      | .ok (t3, c3) => ⟨t3, c3, tr, tk, none⟩

/-- The catch block of `executeRemoteTransferOnSource` applied to the
body's result: an `AbortError` finalizes the SubTask as cancelled when it
is not already, any other error finalizes it as failed; the error is then
rethrown. -/
def catchWrap (sid now : Nat) (r : MainRes) : MainRes :=
  match r.err with
  | some (.abortError m) =>
    (match r.task.subTasks.find? (fun st => st.subTaskId == sid) with
     | some stv =>
       if stv.status ≠ .cancelled then
         { r with task := updateSubTaskStatus r.task sid .cancelled none (some m) now }
       else r
     | none => r)
  | some (.error m) =>
    { r with task := updateSubTaskStatus r.task sid .failed none (some m) now }
  | none => r

/-- The body together with the catch block. -/
def mainBodyCaught (env : ExecEnv) (pref : Pref) (item : SourceItem)
    (target : TargetInfo) (t : Task) (sid now c0 : Nat) : MainRes :=
  catchWrap sid now (mainBody env pref item target t sid now c0)

/-- Overall result of one `executeRemoteTransferOnSource` run. -/
structure RunOut where
  task : Task
  trace : List TraceEv
  err : Option TErr
deriving DecidableEq

/-- `executeRemoteTransferOnSource` including its `finally` block: whenever
a temporary key path was planted, a deletion attempt for that exact path is
appended to the trace; the deletion outcome is only logged and never
touches the task. -/
def finallyDelete (deleteOk : Bool) (r : MainRes) : RunOut :=
  match r.tempKey with
  | some p => ⟨r.task, r.trace ++ [TraceEv.deleteAttempt p deleteOk], r.err⟩
  | none => ⟨r.task, r.trace, r.err⟩

/-- `executeRemoteTransferOnSource` with its `finally` block. -/
def runTransfer (env : ExecEnv) (deleteOk : Bool) (pref : Pref)
    (item : SourceItem) (target : TargetInfo) (t : Task)
    (sid now c0 : Nat) : RunOut :=
  finallyDelete deleteOk (mainBodyCaught env pref item target t sid now c0)

/-! ## Spec-side definitions

These two definitions follow the wording of the specification (§4.1 status
rollup), to be compared with the embedded code.  `specRollup` is the rollup
exactly as the spec and claim C3 state it; `specRollupAmended` differs only
in the final fallback, amended to what the code computes. -/

/-- Number of occurrences of one status in a status multiset. -/
def cntS (s : SubStatus) (sts : List SubStatus) : Nat :=
  (sts.filter (fun x => decide (x = s))).length

/-- The rollup function as the specification states it: all-failed, then
all-completed, then failed-plus-completed, then active-or-mixed-queued,
then all-queued, and `partially-completed` in every remaining case. -/
def specRollup (sts : List SubStatus) : TaskStatus :=
  let n := sts.length
  let failed := cntS .failed sts
  let completed := cntS .completed sts
  let active := cntS .connecting sts + cntS .transferring sts
  let queued := cntS .queued sts
  if failed = n then .failed
  else if completed = n then .completed
  else if 0 < failed ∧ completed + failed = n then .partiallyCompleted
  else if 0 < active ∨ (0 < queued ∧ (0 < failed ∨ 0 < completed)) then .inProgress
  else if queued = n then .queued
  else .partiallyCompleted

/-- The rollup as amended to match the code: in the remaining cases the
status is `partially-completed` exactly when some SubTask completed, some
is queued and none failed, and `in-progress` otherwise (e.g. when the
remainder is made up of cancelled SubTasks). -/
def specRollupAmended (sts : List SubStatus) : TaskStatus :=
  let n := sts.length
  let failed := cntS .failed sts
  let completed := cntS .completed sts
  let active := cntS .connecting sts + cntS .transferring sts
  let queued := cntS .queued sts
  if failed = n then .failed
  else if completed = n then .completed
  else if 0 < failed ∧ completed + failed = n then .partiallyCompleted
  else if 0 < active ∨ (0 < queued ∧ (0 < failed ∨ 0 < completed)) then .inProgress
  else if queued = n then .queued
  else if 0 < completed ∧ 0 < queued ∧ failed = 0 then .partiallyCompleted
  else .inProgress

/-- Status of the SubTask at position `i` of a task. -/
def statusAt (t : Task) (i : Nat) : Option SubStatus :=
  (t.subTasks[i]?).map (fun st => st.status)

/-- End timestamp of the SubTask at position `i` of a task. -/
def endTimeAt (t : Task) (i : Nat) : Option (Option Nat) :=
  (t.subTasks[i]?).map (fun st => st.endTime)

/-- One recorded `updateSubTaskStatus` call. -/
structure UpdateCmd where
  sid : Nat
  ns : SubStatus
  prog : Option Int
  msg : Option String
  now : Nat
deriving DecidableEq

/-- A sequence of `updateSubTaskStatus` calls applied in order. -/
def applyCmds (t : Task) (cmds : List UpdateCmd) : Task :=
  cmds.foldl (fun acc c => updateSubTaskStatus acc c.sid c.ns c.prog c.msg c.now) t

/-! ## Concrete example states used by counterexamples and witnesses -/

/-- A sample source file item. -/
def itemA : SourceItem := ⟨"a.txt", "/srcdir/a.txt", false⟩

/-- A second sample source file item. -/
def itemB : SourceItem := ⟨"b.txt", "/srcdir/b.txt", false⟩

/-- A request with one target and two items (two SubTasks). -/
def payloadTwo : Payload := ⟨0, [0], [itemA, itemB], "/dst", .auto⟩

/-- A request with one target and one item (one SubTask). -/
def payloadOne : Payload := ⟨0, [0], [itemA], "/dst", .auto⟩

/-- A freshly initiated task with two queued SubTasks (ids 0 and 1). -/
def taskTwoQueued : Task := initiateNewTransfer payloadTwo 7 1 0

/-- A freshly initiated task with one queued SubTask (id 0), owner 5, id 9. -/
def taskOneQueued : Task := initiateNewTransfer payloadOne 5 9 0

/-- A task whose single SubTask has been cancelled. -/
def taskOneCancelled : Task :=
  updateSubTaskStatus taskOneQueued 0 .cancelled none none 1

/-- A task whose single SubTask has completed. -/
def taskOneCompleted : Task :=
  updateSubTaskStatus taskOneQueued 0 .completed (some 100) none 1

/-- A task with one completed and one cancelled SubTask (the final multiset
of a run in which one SubTask finished before cancellation). -/
def taskMixedCC : Task :=
  updateSubTaskStatus
    (updateSubTaskStatus taskTwoQueued 0 .completed (some 100) none 1)
    1 .cancelled none none 2

/-- Registry in which task 9 exists and is owned by user 5, but its
`AbortController` has already been removed (background processing done). -/
def stateNoController : ServiceState := { tasks := [taskOneQueued], controllers := [] }

/-- Registry in which task 9 exists, is owned by user 5, and still has its
`AbortController`. -/
def stateWithController : ServiceState :=
  { tasks := [taskOneQueued], controllers := [(9, false)] }

/-- Environment for a clean scp transfer to a key-authenticated target:
no abort, sshpass and scp present, mkdir and key upload succeed, command
exits 0. -/
def envHappyKey : ExecEnv :=
  { abortAt := none, sshpassPath := some "/usr/bin/sshpass",
    rsyncPathOnSource := none, scpPathOnSource := some "/usr/bin/scp",
    rsyncPathOnTarget := none, mkdirOk := true, mkdirErrMsg := "",
    uploadOk := true, keySuffix := "abc123", progressEvents := [],
    execOutcome := .exit 0 }

/-- A key-authenticated target without passphrase. -/
def targetKey : TargetInfo :=
  { name := "t1", host := "10.0.0.2", username := "root", port := some 22,
    auth_method := .key, hasPrivateKey := true, hasPassphrase := false,
    hasPassword := false }

/-- The rewrite a non-terminal SubTask undergoes in the cancel sweep of
`cancelTransferTask`: status cancelled, progress re-clamped, message set. -/
def cancelOne (now : Nat) (st : SubTask) : SubTask :=
  applyFields .cancelled st.progress
    (some "Cancelled due to parent task cancellation.") now st

/-- Number of scheduler slots whose wrapper is currently running. -/
def countRunning (subs : List SubSlot) : Nat :=
  (subs.filter (fun sl => decide (sl.phase = .running))).length

/-- Number of SubTasks currently in `connecting` or `transferring`. -/
def countCT (subs : List SubSlot) : Nat :=
  (subs.filter (fun sl =>
    decide (sl.status = .connecting ∨ sl.status = .transferring))).length

/-- Scheduler invariant: the active counter counts the running wrappers and
stays within the concurrency limit, the cursor is in range, slots at or
beyond the cursor are unlaunched, and every connecting/transferring SubTask
belongs to a running wrapper. -/
def SchedInv (s : Sched) : Prop :=
  s.active = countRunning s.subs ∧
  s.active ≤ MAX_CONCURRENT_SUB_TASKS ∧
  s.nextIdx ≤ s.subs.length ∧
  (∀ (i : Nat) (sl : SubSlot), s.subs[i]? = some sl → s.nextIdx ≤ i →
    sl.phase = .idle) ∧
  (∀ sl ∈ s.subs, (sl.status = .connecting ∨ sl.status = .transferring) →
    sl.phase = .running)

/-- Invariant backing the end-timestamp rule: a SubTask that is not
completed and not failed carries no end timestamp. -/
def EndInv (t : Task) : Prop :=
  ∀ (i : Nat) (a : SubTask), t.subTasks[i]? = some a → a.status ≠ .completed →
    a.status ≠ .failed → a.endTime = none

/-! ## Theorems -/

/-- Claim C1, counterexample: the claim states that once a SubTask is
completed, failed or cancelled, no later `updateSubTaskStatus` call changes
its status to a non-terminal value.  The guard only protects completed and
failed: here a SubTask whose status is `cancelled` is overwritten with the
non-terminal status `connecting` by a later call. -/
theorem c1_cancelled_overwritten :
    statusAt taskOneCancelled 0 = some .cancelled ∧
    statusAt (updateSubTaskStatus taskOneCancelled 0 .connecting none none 2) 0
      = some .connecting := by
  decide

/-- Claim C2 (code bug), demonstration: a task cancelled before its
SubTask loop starts ends with every SubTask `cancelled` and the task status
`cancelled`; `finalizeOverallTaskStatus` then recomputes the rollup, whose
fallback counts cancelled SubTasks nowhere and overwrites the terminal
status with the non-terminal `in-progress`. -/
theorem c2_all_cancelled_finalizes_in_progress :
    (finalizeOverallTaskStatus
      (updateOverallTaskStatus
        (updateSubTaskStatus
          (updateSubTaskStatus taskTwoQueued 0 .cancelled none (some "pre") 1)
          1 .cancelled none (some "pre") 1)
        .cancelled 2) 3).status = .inProgress ∧
    ¬((finalizeOverallTaskStatus
      (updateOverallTaskStatus
        (updateSubTaskStatus
          (updateSubTaskStatus taskTwoQueued 0 .cancelled none (some "pre") 1)
          1 .cancelled none (some "pre") 1)
        .cancelled 2) 3).status = .completed ∨
     (finalizeOverallTaskStatus
      (updateOverallTaskStatus
        (updateSubTaskStatus
          (updateSubTaskStatus taskTwoQueued 0 .cancelled none (some "pre") 1)
          1 .cancelled none (some "pre") 1)
        .cancelled 2) 3).status = .failed ∨
     (finalizeOverallTaskStatus
      (updateOverallTaskStatus
        (updateSubTaskStatus
          (updateSubTaskStatus taskTwoQueued 0 .cancelled none (some "pre") 1)
          1 .cancelled none (some "pre") 1)
        .cancelled 2) 3).status = .partiallyCompleted ∨
     (finalizeOverallTaskStatus
      (updateOverallTaskStatus
        (updateSubTaskStatus
          (updateSubTaskStatus taskTwoQueued 0 .cancelled none (some "pre") 1)
          1 .cancelled none (some "pre") 1)
        .cancelled 2) 3).status = .cancelled) := by
  decide

/-- Claim C3, counterexample: on the multiset {completed, cancelled} the
code's rollup (fallback branch, no queued SubTask) yields `in-progress`,
while the rollup as the claim states it yields `partially-completed` in
every remaining case. -/
theorem c3_rollup_fallback_mismatch :
    (updateOverallTaskStatusBasedOnSubTasks taskMixedCC 3).status = .inProgress ∧
    specRollup (taskMixedCC.subTasks.map SubTask.status) = .partiallyCompleted ∧
    TaskStatus.inProgress ≠ TaskStatus.partiallyCompleted := by
  decide

/-- Claim C4 (code bug), demonstration: a task whose source connection
failed is set to `failed` while all its SubTasks are still `queued` (the
direct write honours the terminality guard); the rollup recomputation in
`finalizeOverallTaskStatus` then assigns the status without that guard and
moves the failed task back to the transient status `queued`. -/
theorem c4_failed_task_finalized_to_queued :
    (updateOverallTaskStatus
      (updateOverallTaskStatus taskTwoQueued .inProgress 1) .failed 2).status
      = .failed ∧
    (finalizeOverallTaskStatus
      (updateOverallTaskStatus
        (updateOverallTaskStatus taskTwoQueued .inProgress 1) .failed 2) 3).status
      = .queued := by
  decide

/-- Claim C5 (code bug), demonstration: with two SubTasks launched and in
flight (`active = 2`), firing the abort signal makes `onAbortOverall`
reject the scheduler's completion promise immediately — the promise settles
while launched SubTasks are still outstanding, contradicting
drain-before-settle. -/
theorem c5_promise_rejects_with_active_subtasks :
    (initSched [.queued, .queued] false).active = 2 ∧
    (initSched [.queued, .queued] false).settled = none ∧
    SStep (initSched [.queued, .queued] false)
      (abortEffect (initSched [.queued, .queued] false)) ∧
    (abortEffect (initSched [.queued, .queued] false)).settled = some .rejected ∧
    (abortEffect (initSched [.queued, .queued] false)).active = 2 := by
  refine ⟨by decide, by decide, SStep.abort _ (by decide), by decide, by decide⟩

/-- Claim C6, counterexample: the claim states `cancelTransferTask` returns
false if and only if the task is unknown or not owned, and that it moves a
known, owned, non-terminal task to `cancelling`.  Here (a) a known, owned
task whose `AbortController` has been removed gets `false`, and (b) for a
known, owned task with its controller the call returns true but the task
ends in `in-progress` (the rollup triggered by the SubTask cancellation
overwrites `cancelling`), not `cancelling`. -/
theorem c6_cancel_contract_counterexample :
    ((stateNoController.tasks.find? (fun t => t.taskId == 9)).map Task.userId
      = some 5) ∧
    (cancelTransferTask stateNoController 9 5 1).2 = false ∧
    (cancelTransferTask stateWithController 9 5 1).2 = true ∧
    (((cancelTransferTask stateWithController 9 5 1).1.tasks.find?
        (fun t => t.taskId == 9)).map Task.status = some .inProgress) := by
  decide

/-! ### List infrastructure lemmas -/

theorem length_updateFirst (p : α → Bool) (f : α → α) (l : List α) :
    (updateFirst p f l).length = l.length := by
  induction l with
  | nil => rfl
  | cons x xs ih =>
    simp only [updateFirst]
    split <;> simp [ih]

theorem getElem?_updateFirst (p : α → Bool) (f : α → α) (l : List α) (i : Nat) :
    (updateFirst p f l)[i]? = l[i]? ∨
    ∃ a, l[i]? = some a ∧ p a = true ∧ l.find? p = some a ∧
      (updateFirst p f l)[i]? = some (f a) := by
  induction l generalizing i with
  | nil => left; rfl
  | cons x xs ih =>
    by_cases hp : p x = true
    · cases i with
      | zero =>
        right
        exact ⟨x, by simp, hp, List.find?_cons_of_pos _ hp, by simp [updateFirst, hp]⟩
      | succ n =>
        left
        simp [updateFirst, hp]
    · have hfind : (x :: xs).find? p = xs.find? p :=
        List.find?_cons_of_neg _ (by simpa using hp)
      cases i with
      | zero =>
        left
        simp [updateFirst, hp]
      | succ n =>
        rcases ih n with h | ⟨a, ha, hpa, hf, hu⟩
        · left; simpa [updateFirst, hp] using h
        · right
          exact ⟨a, by simpa using ha, hpa, by rw [hfind]; exact hf,
                 by simpa [updateFirst, hp] using hu⟩

/-- The `subTasks` field is untouched by the rollup recomputation. -/
theorem subTasks_rollup (t : Task) (now : Nat) :
    (updateOverallTaskStatusBasedOnSubTasks t now).subTasks = t.subTasks := by
  simp only [updateOverallTaskStatusBasedOnSubTasks]
  split <;> rfl

/-- The `subTasks` field is untouched by a direct overall status write. -/
theorem subTasks_updateOverallTaskStatus (t : Task) (ns : TaskStatus) (now : Nat) :
    (updateOverallTaskStatus t ns now).subTasks = t.subTasks := by
  simp only [updateOverallTaskStatus]
  split <;> rfl

/-- Characterization of the `subTasks` list after `updateSubTaskStatus`:
either the call was a no-op on the list, or the guard passed and the first
matching SubTask got the field updates. -/
theorem updateSubTaskStatus_subTasks (t : Task) (sid : Nat) (ns : SubStatus)
    (prog : Option Int) (msg : Option String) (now : Nat) :
    (updateSubTaskStatus t sid ns prog msg now).subTasks = t.subTasks ∨
    ((updateSubTaskStatus t sid ns prog msg now).subTasks
        = updateFirst (fun s => s.subTaskId == sid) (applyFields ns prog msg now)
            t.subTasks ∧
      ∃ st, t.subTasks.find? (fun s => s.subTaskId == sid) = some st ∧
        ¬((st.status = .completed ∨ st.status = .failed) ∧
          ¬(ns = .completed ∨ ns = .failed))) := by
  unfold updateSubTaskStatus
  cases h : t.subTasks.find? (fun st => st.subTaskId == sid) with
  | none => left; rfl
  | some st =>
    by_cases hg : (st.status = .completed ∨ st.status = .failed) ∧
        ¬(ns = .completed ∨ ns = .failed)
    · left; simp [hg]
    · right
      refine ⟨?_, st, rfl, hg⟩
      simp only [hg, if_neg, not_false_iff]
      rw [subTasks_rollup]

theorem length_updateSubTaskStatus (t : Task) (sid : Nat) (ns : SubStatus)
    (prog : Option Int) (msg : Option String) (now : Nat) :
    (updateSubTaskStatus t sid ns prog msg now).subTasks.length
      = t.subTasks.length := by
  rcases updateSubTaskStatus_subTasks t sid ns prog msg now with h | ⟨h, _⟩ <;>
    simp [h, length_updateFirst]

theorem length_cancelSubStep (now : Nat) (t : Task) (sid : Nat) :
    (cancelSubStep now t sid).subTasks.length = t.subTasks.length := by
  unfold cancelSubStep
  split
  · rfl
  · split
    · exact length_updateSubTaskStatus ..
    · rfl

theorem length_cancelFold (now : Nat) (ids : List Nat) (t : Task) :
    ((ids.foldl (cancelSubStep now) t).subTasks.length) = t.subTasks.length := by
  induction ids generalizing t with
  | nil => rfl
  | cons x xs ih => simp only [List.foldl_cons]; rw [ih, length_cancelSubStep]

/-- Mapping over an `updateFirst` is invisible when the mutation preserves
the mapped value on the element actually found. -/
theorem map_updateFirst (g : α → β) (p : α → Bool) (f : α → α) (l : List α)
    (h : ∀ a, l.find? p = some a → g (f a) = g a) :
    (updateFirst p f l).map g = l.map g := by
  induction l with
  | nil => rfl
  | cons x xs ih =>
    by_cases hp : p x = true
    · have := h x (List.find?_cons_of_pos _ hp)
      simp [updateFirst, hp, this]
    · have hfind : (x :: xs).find? p = xs.find? p :=
        List.find?_cons_of_neg _ (by simpa using hp)
      simp only [updateFirst, hp]
      simp only [Bool.false_eq_true, if_false, List.map_cons]
      rw [ih]
      intro a ha
      exact h a (by rw [hfind]; exact ha)

theorem length_crossPairs (c : List Nat) (it : List SourceItem) :
    (crossPairs c it).length = c.length * it.length := by
  induction c with
  | nil => simp [crossPairs]
  | cons x xs ih =>
    simp only [crossPairs, List.flatMap_cons, List.length_append,
      List.length_map, List.length_cons] at *
    rw [ih]
    ring

/-- Claim C9: `initiateNewTransfer` creates exactly
`|targets| x |items|` SubTasks, and none of the service operations ever
adds to or removes from a task's SubTask list. -/
theorem c9_cardinality_fixed :
    (∀ payload uid tid now, (initiateNewTransfer payload uid tid now).subTasks.length
        = payload.connectionIds.length * payload.sourceItems.length) ∧
    (∀ t sid ns prog msg now,
        (updateSubTaskStatus t sid ns prog msg now).subTasks.length
          = t.subTasks.length) ∧
    (∀ t ns now, (updateOverallTaskStatus t ns now).subTasks.length
        = t.subTasks.length) ∧
    (∀ t now, (updateOverallTaskStatusBasedOnSubTasks t now).subTasks.length
        = t.subTasks.length) ∧
    (∀ t now, (finalizeOverallTaskStatus t now).subTasks.length
        = t.subTasks.length) ∧
    (∀ s tid uid now,
        ((cancelTransferTask s tid uid now).1.tasks.map
          (fun t => t.subTasks.length)) = s.tasks.map (fun t => t.subTasks.length)) := by
  refine ⟨?_, ?_, ?_, ?_, ?_, ?_⟩
  · intro payload uid tid now
    simp [initiateNewTransfer, mkSubTasks, length_crossPairs]
  · exact length_updateSubTaskStatus
  · intro t ns now; rw [subTasks_updateOverallTaskStatus]
  · intro t now; rw [subTasks_rollup]
  · intro t now; rw [finalizeOverallTaskStatus, subTasks_rollup]
  · intro s tid uid now
    unfold cancelTransferTask
    split
    · rfl
    · rename_i task hf
      split
      · rfl
      · split
        · rfl
        · rename_i ctrl hc
          dsimp only
          apply map_updateFirst
          intro a ha
          rw [ha] at hf
          cases hf
          unfold cancelAllNonFinalSubs
          rw [length_cancelFold]
          split <;> simp [subTasks_updateOverallTaskStatus]

end Nexus

namespace Nexus

/-! ### Field lemmas for `applyFields` -/

theorem status_applyFields (ns : SubStatus) (prog : Option Int)
    (msg : Option String) (now : Nat) (st : SubTask) :
    (applyFields ns prog msg now st).status = ns := by
  unfold applyFields
  cases prog <;> cases msg <;> dsimp only <;> split <;> rfl

theorem endTime_applyFields (ns : SubStatus) (prog : Option Int)
    (msg : Option String) (now : Nat) (st : SubTask) :
    (applyFields ns prog msg now st).endTime =
      if (ns = .completed ∨ ns = .failed) ∧ st.endTime = none then some now
      else st.endTime := by
  unfold applyFields
  cases prog <;> cases msg <;> dsimp only <;> split <;> rfl

/-- One `updateSubTaskStatus` call preserves a completed/failed status at
every position (first half of the guard contract). -/
theorem statusAt_guard_step (t : Task) (sid : Nat) (ns : SubStatus)
    (prog : Option Int) (msg : Option String) (now i : Nat) (s0 : SubStatus)
    (h : statusAt t i = some s0) (hcf : s0 = .completed ∨ s0 = .failed) :
    ∃ s1, statusAt (updateSubTaskStatus t sid ns prog msg now) i = some s1 ∧
      (s1 = .completed ∨ s1 = .failed) := by
  rcases updateSubTaskStatus_subTasks t sid ns prog msg now with
    heq | ⟨heq, st, hfind, hguard⟩
  · exact ⟨s0, by rw [statusAt, heq]; exact h, hcf⟩
  · rcases getElem?_updateFirst (fun s => s.subTaskId == sid)
      (applyFields ns prog msg now) t.subTasks i with hsame | ⟨a, ha, hpa, hfa, hua⟩
    · refine ⟨s0, ?_, hcf⟩
      rw [statusAt, heq, hsame]
      exact h
    · rw [hfa] at hfind
      injection hfind with hfind2
      subst hfind2
      have hs0 : a.status = s0 := by
        rw [statusAt, ha] at h
        simpa using h
    -- the guard did not fire, yet the old status is completed/failed, so
    -- the new status must be completed/failed as well
      have hcfns : ns = .completed ∨ ns = .failed := by
        by_contra hns
        exact hguard ⟨hs0 ▸ hcf, hns⟩
      refine ⟨ns, ?_, hcfns⟩
      rw [statusAt, heq, hua]
      simp [status_applyFields]

/-- Claim C1 (amended): once a SubTask's status is `completed` or `failed`,
no later sequence of `updateSubTaskStatus` calls can change it to any
status outside {completed, failed}; a `cancelled` SubTask enjoys no such
protection (see the counterexample). -/
theorem c1_terminal_guard_amended (t : Task) (cmds : List UpdateCmd) (i : Nat)
    (s0 : SubStatus) (h : statusAt t i = some s0)
    (hcf : s0 = .completed ∨ s0 = .failed) :
    ∃ s1, statusAt (applyCmds t cmds) i = some s1 ∧
      (s1 = .completed ∨ s1 = .failed) := by
  induction cmds generalizing t s0 with
  | nil => exact ⟨s0, h, hcf⟩
  | cons c cs ih =>
    rcases statusAt_guard_step t c.sid c.ns c.prog c.msg c.now i s0 h hcf with
      ⟨s1, h1, hcf1⟩
    simp only [applyCmds, List.foldl_cons]
    exact ih _ _ h1 hcf1

/-- Witness for C1 (amended): a completed SubTask stays completed/failed
under a later `connecting` update. -/
theorem c1_terminal_guard_amended_witness :
    ∃ s1, statusAt (applyCmds taskOneCompleted
        [⟨0, .connecting, none, none, 9⟩]) 0 = some s1 ∧
      (s1 = .completed ∨ s1 = .failed) :=
  c1_terminal_guard_amended taskOneCompleted [⟨0, .connecting, none, none, 9⟩]
    0 .completed (by decide) (Or.inl rfl)

end Nexus

namespace Nexus

/-! ### End-timestamp lemmas (claim C10) -/

/-- A transition to `cancelled` never touches any end timestamp. -/
theorem endTimeAt_cancel_step (t : Task) (sid : Nat) (prog : Option Int)
    (msg : Option String) (now i : Nat) :
    endTimeAt (updateSubTaskStatus t sid .cancelled prog msg now) i
      = endTimeAt t i := by
  rcases updateSubTaskStatus_subTasks t sid .cancelled prog msg now with
    heq | ⟨heq, st, hfind, hguard⟩
  · rw [endTimeAt, heq]; rfl
  · rcases getElem?_updateFirst (fun s => s.subTaskId == sid)
      (applyFields .cancelled prog msg now) t.subTasks i with
      hsame | ⟨a, ha, hpa, hfa, hua⟩
    · rw [endTimeAt, heq, hsame]; rfl
    · rw [endTimeAt, heq, hua, endTimeAt, ha]
      simp [endTime_applyFields]

/-- An end timestamp, once set, is never changed by `updateSubTaskStatus`. -/
theorem endTimeAt_frozen_step (t : Task) (sid : Nat) (ns : SubStatus)
    (prog : Option Int) (msg : Option String) (now i e : Nat)
    (h : endTimeAt t i = some (some e)) :
    endTimeAt (updateSubTaskStatus t sid ns prog msg now) i = some (some e) := by
  rcases updateSubTaskStatus_subTasks t sid ns prog msg now with
    heq | ⟨heq, st, hfind, hguard⟩
  · rw [endTimeAt, heq]; exact h
  · rcases getElem?_updateFirst (fun s => s.subTaskId == sid)
      (applyFields ns prog msg now) t.subTasks i with
      hsame | ⟨a, ha, hpa, hfa, hua⟩
    · rw [endTimeAt, heq, hsame]; exact h
    · have hae : a.endTime = some e := by
        rw [endTimeAt, ha] at h
        simpa using h
      rw [endTimeAt, heq, hua]
      simp [endTime_applyFields, hae]

/-- `updateSubTaskStatus` preserves the end-timestamp invariant. -/
theorem endInv_step (t : Task) (sid : Nat) (ns : SubStatus) (prog : Option Int)
    (msg : Option String) (now : Nat) (h : EndInv t) :
    EndInv (updateSubTaskStatus t sid ns prog msg now) := by
  unfold EndInv at h ⊢
  rcases updateSubTaskStatus_subTasks t sid ns prog msg now with
    heq | ⟨heq, st, hfind, hguard⟩
  · intro i a hia hc hf
    rw [heq] at hia
    exact h i a hia hc hf
  · intro i a hia hc hf
    rw [heq] at hia
    rcases getElem?_updateFirst (fun s => s.subTaskId == sid)
      (applyFields ns prog msg now) t.subTasks i with
      hsame | ⟨b, hb, hpb, hfb, hub⟩
    · rw [hsame] at hia
      exact h i a hia hc hf
    · rw [hfb] at hfind
      injection hfind with hfind2
      subst hfind2
      rw [hub] at hia
      injection hia with hia2
      subst hia2
      have hns : ¬(ns = .completed ∨ ns = .failed) := by
        rw [status_applyFields] at hc hf
        rintro (h1 | h1) <;> [exact hc h1; exact hf h1]
      have hbcf : ¬(b.status = .completed ∨ b.status = .failed) := by
        intro hb2
        exact hguard ⟨hb2, hns⟩
      have hbe : b.endTime = none := by
        refine h i b hb ?_ ?_ <;> intro h2 <;> exact hbcf (by simp [h2])
      simp [endTime_applyFields, hns, hbe]

/-- Any sequence of `updateSubTaskStatus` calls preserves the invariant. -/
theorem endInv_cmds (cmds : List UpdateCmd) (t : Task) (h : EndInv t) :
    EndInv (applyCmds t cmds) := by
  induction cmds generalizing t with
  | nil => exact h
  | cons c cs ih =>
    simp only [applyCmds, List.foldl_cons]
    exact ih _ (endInv_step _ _ _ _ _ _ h)

/-- A freshly created task satisfies the invariant: every SubTask starts
without an end timestamp. -/
theorem endInv_init (payload : Payload) (uid tid now : Nat) :
    EndInv (initiateNewTransfer payload uid tid now) := by
  unfold EndInv
  intro i a hia hc hf
  simp only [initiateNewTransfer, mkSubTasks, List.getElem?_map] at hia
  cases hx : (crossPairs payload.connectionIds payload.sourceItems).enum[i]? with
  | none => rw [hx] at hia; cases hia
  | some pr =>
    rw [hx] at hia
    injection hia with hia2
    subst hia2
    rfl

/-- Claim C10: `updateSubTaskStatus` sets `endTime` only on a transition to
completed/failed and only when it is not already set; a transition to
`cancelled` never sets it, an existing end timestamp is never changed, and
a SubTask of an initiated task that ends up `cancelled` after any update
sequence carries no end timestamp. -/
theorem c10_endtime_rule :
    (∀ t sid prog msg now i,
        endTimeAt (updateSubTaskStatus t sid .cancelled prog msg now) i
          = endTimeAt t i) ∧
    (∀ t sid ns prog msg now i e, endTimeAt t i = some (some e) →
        endTimeAt (updateSubTaskStatus t sid ns prog msg now) i = some (some e)) ∧
    (∀ (payload : Payload) (uid tid now0 : Nat) (cmds : List UpdateCmd)
        (i : Nat) (a : SubTask),
        (applyCmds (initiateNewTransfer payload uid tid now0) cmds).subTasks[i]?
          = some a →
        a.status = .cancelled → a.endTime = none) := by
  refine ⟨endTimeAt_cancel_step, endTimeAt_frozen_step, ?_⟩
  intro payload uid tid now0 cmds i a hia hst
  have hinv := endInv_cmds cmds _ (endInv_init payload uid tid now0)
  unfold EndInv at hinv
  exact hinv i a hia (by simp [hst]) (by simp [hst])

/-- Witness for C10: the completed SubTask of `taskOneCompleted` has end
timestamp 1, and a later `failed` update leaves it untouched. -/
theorem c10_endtime_rule_witness :
    endTimeAt taskOneCompleted 0 = some (some 1) ∧
    endTimeAt (updateSubTaskStatus taskOneCompleted 0 .failed none none 2) 0
      = some (some 1) :=
  ⟨by decide, c10_endtime_rule.2.1 taskOneCompleted 0 .failed none none 2 0 1
    (by decide)⟩

end Nexus

namespace Nexus

/-! ### Rollup equivalence (claim C3) -/

theorem cntS_cons (s x : SubStatus) (xs : List SubStatus) :
    cntS s (x :: xs) = cntS s xs + (if x = s then 1 else 0) := by
  simp only [cntS, List.filter_cons]
  split <;> simp_all

/-- The `forEach`-switch counters agree with the filter-based counts of the
specification, for any accumulator. -/
theorem countFold_spec (subs : List SubTask) : ∀ acc : StatusCounts,
    ((subs.foldl countStep acc).failedCount
        = acc.failedCount + cntS .failed (subs.map SubTask.status)) ∧
    ((subs.foldl countStep acc).completedCount
        = acc.completedCount + cntS .completed (subs.map SubTask.status)) ∧
    ((subs.foldl countStep acc).inProgressCount
        = acc.inProgressCount + (cntS .connecting (subs.map SubTask.status)
            + cntS .transferring (subs.map SubTask.status))) ∧
    ((subs.foldl countStep acc).queuedCount
        = acc.queuedCount + cntS .queued (subs.map SubTask.status)) := by
  induction subs with
  | nil => intro acc; simp [cntS]
  | cons x xs ih =>
    intro acc
    obtain ⟨h1, h2, h3, h4⟩ := ih (countStep acc x)
    cases hst : x.status
    all_goals
      simp only [countStep, hst] at h1 h2 h3 h4
      refine ⟨?_, ?_, ?_, ?_⟩ <;>
        simp only [List.foldl_cons, List.map_cons, cntS_cons, hst, countStep,
          h1, h2, h3, h4] <;>
        simp <;> omega

/-- On a non-empty SubTask list the code's recomputed status equals the
amended specification rollup. -/
theorem rollup_eq_amended (subs : List SubTask) (h : subs ≠ []) :
    rollupNewStatus subs.length (countSubTasks subs)
      = specRollupAmended (subs.map SubTask.status) := by
  obtain ⟨h1, h2, h3, h4⟩ := countFold_spec subs ⟨0, 0, 0, 0, 0⟩
  have hn : subs.length ≠ 0 := by simpa using h
  unfold rollupNewStatus specRollupAmended
  rw [countSubTasks] at *
  simp only [List.length_map]
  rw [h1, h2, h3, h4]
  simp only [Nat.zero_add]
  split_ifs <;> first | rfl | omega

/-- Claim C3 (amended): for every non-empty SubTask multiset, the
recomputed overall status equals the spec rollup with the fallback amended
to the code's behaviour — `partially-completed` only when some SubTask
completed, some is queued and none failed; `in-progress` in every other
remaining case (in particular when the remainder involves cancelled
SubTasks). -/
theorem c3_rollup_matches_amended_spec (t : Task) (now : Nat)
    (h : t.subTasks ≠ []) :
    (updateOverallTaskStatusBasedOnSubTasks t now).status
      = specRollupAmended (t.subTasks.map SubTask.status) := by
  have hn : t.subTasks.length ≠ 0 := by simpa using h
  simp only [updateOverallTaskStatusBasedOnSubTasks]
  rw [if_neg hn]
  exact rollup_eq_amended t.subTasks h

/-- Witness for C3 (amended), on the {completed, cancelled} multiset. -/
theorem c3_rollup_matches_amended_spec_witness :
    (updateOverallTaskStatusBasedOnSubTasks taskMixedCC 3).status
      = specRollupAmended (taskMixedCC.subTasks.map SubTask.status) :=
  c3_rollup_matches_amended_spec taskMixedCC 3 (by decide)

end Nexus

namespace Nexus

/-! ### Credential residue lemmas (claim C7) -/

/-- In an error result of the credential phase, an upload event in the
trace pins the temporary key path. -/
theorem keyPhase_error_shape (env : ExecEnv) (target : TargetInfo) (t : Task)
    (sid now c : Nat) (sp : Option String) (e : TErr) (t2 : Task) (c2 : Nat)
    (tr : List TraceEv) (tk : Option String)
    (h : keyPhase env target t sid now c sp = .error (e, t2, c2, tr, tk))
    (p : String) (hp : TraceEv.uploadKey p ∈ tr) : tk = some p := by
  simp only [keyPhase] at h
  split_ifs at h <;>
    first
      | exact Except.noConfusion h
      | (injection h with h2
         simp only [Prod.mk.injEq] at h2
         obtain ⟨-, -, -, htr, htk⟩ := h2
         subst htr
         subst htk
         first
           | (simp at hp
              rw [hp])
           | simp at hp)

/-- In a successful result of the credential phase, an upload event in the
trace pins the temporary key path. -/
theorem keyPhase_ok_shape (env : ExecEnv) (target : TargetInfo) (t : Task)
    (sid now c : Nat) (sp : Option String) (t2 : Task) (c2 : Nat)
    (tr : List TraceEv) (tk : Option String)
    (h : keyPhase env target t sid now c sp = .ok (t2, c2, tr, tk))
    (p : String) (hp : TraceEv.uploadKey p ∈ tr) : tk = some p := by
  simp only [keyPhase] at h
  split_ifs at h <;>
    first
      | exact Except.noConfusion h
      | (injection h with h2
         simp only [Prod.mk.injEq] at h2
         obtain ⟨-, -, htr, htk⟩ := h2
         subst htr
         subst htk
         first
           | (simp at hp
              rw [hp])
           | simp at hp)

/-- In the body's result, an upload event in the trace pins the temporary
key path. -/
theorem mainBody_upload_tempKey (env : ExecEnv) (pref : Pref)
    (item : SourceItem) (target : TargetInfo) (t : Task) (sid now c0 : Nat)
    (p : String)
    (h : TraceEv.uploadKey p ∈ (mainBody env pref item target t sid now c0).trace) :
    (mainBody env pref item target t sid now c0).tempKey = some p := by
  unfold mainBody at h ⊢
  cases hA : phaseA env pref item t sid now c0 with
  | error pk =>
    obtain ⟨e, t1, c1⟩ := pk
    rw [hA] at h
    simp at h
  | ok pk =>
    obtain ⟨t1, c1, cmdType, sp⟩ := pk
    rw [hA] at h
    dsimp only at h ⊢
    cases hK : keyPhase env target t1 sid now c1 sp with
    | error pk2 =>
      obtain ⟨e, t2, c2, tr, tk⟩ := pk2
      rw [hK] at h
      dsimp only at h ⊢
      exact keyPhase_error_shape env target t1 sid now c1 sp e t2 c2 tr tk hK p h
    | ok pk2 =>
      obtain ⟨t2, c2, tr, tk⟩ := pk2
      rw [hK] at h
      dsimp only at h ⊢
      cases hE : execPhase env cmdType t2 sid now c2 with
      | error pk3 =>
        obtain ⟨e3, t3, c3⟩ := pk3
        rw [hE] at h
        dsimp only at h ⊢
        exact keyPhase_ok_shape env target t1 sid now c1 sp t2 c2 tr tk hK p h
      | ok pk3 =>
        obtain ⟨t3, c3⟩ := pk3
        rw [hE] at h
        dsimp only at h ⊢
        exact keyPhase_ok_shape env target t1 sid now c1 sp t2 c2 tr tk hK p h

/-- The catch block only rewrites the task: trace and temp-key path pass
through unchanged. -/
theorem catchWrap_frame (sid now : Nat) (r : MainRes) :
    (catchWrap sid now r).trace = r.trace ∧
    (catchWrap sid now r).tempKey = r.tempKey := by
  unfold catchWrap
  split
  · split
    · split <;> exact ⟨rfl, rfl⟩
    · exact ⟨rfl, rfl⟩
  · exact ⟨rfl, rfl⟩
  · exact ⟨rfl, rfl⟩

/-- The `finally` step never touches the task. -/
theorem finallyDelete_task (d : Bool) (r : MainRes) :
    (finallyDelete d r).task = r.task := by
  unfold finallyDelete
  split <;> rfl

/-- Claim C7: whenever a temporary private key was uploaded to the source
host during a SubTask execution, a deletion attempt for that exact remote
path appears in the effect trace before `executeRemoteTransferOnSource`
returns — whatever the outcome — and the deletion result has no influence
on the resulting task (in particular on the SubTask's status). -/
theorem c7_credential_cleanup (env : ExecEnv) (deleteOk : Bool) (pref : Pref)
    (item : SourceItem) (target : TargetInfo) (t : Task) (sid now c0 : Nat)
    (p : String)
    (h : TraceEv.uploadKey p
          ∈ (runTransfer env deleteOk pref item target t sid now c0).trace) :
    TraceEv.deleteAttempt p deleteOk
        ∈ (runTransfer env deleteOk pref item target t sid now c0).trace ∧
    ∀ d2, (runTransfer env d2 pref item target t sid now c0).task
        = (runTransfer env deleteOk pref item target t sid now c0).task := by
  have hframe : (mainBodyCaught env pref item target t sid now c0).trace
        = (mainBody env pref item target t sid now c0).trace ∧
      (mainBodyCaught env pref item target t sid now c0).tempKey
        = (mainBody env pref item target t sid now c0).tempKey :=
    catchWrap_frame sid now (mainBody env pref item target t sid now c0)
  constructor
  · cases hk : (mainBodyCaught env pref item target t sid now c0).tempKey with
    | none =>
      exfalso
      have h2 : TraceEv.uploadKey p
          ∈ (mainBodyCaught env pref item target t sid now c0).trace := by
        unfold runTransfer finallyDelete at h
        rw [hk] at h
        exact h
      have h3 := mainBody_upload_tempKey env pref item target t sid now c0 p
        (hframe.1 ▸ h2)
      rw [← hframe.2, hk] at h3
      cases h3
    | some q =>
      have htr2 : (runTransfer env deleteOk pref item target t sid now c0).trace
          = (mainBodyCaught env pref item target t sid now c0).trace
              ++ [TraceEv.deleteAttempt q deleteOk] := by
        unfold runTransfer finallyDelete
        rw [hk]
      have hmem : TraceEv.uploadKey p
          ∈ (mainBodyCaught env pref item target t sid now c0).trace := by
        rw [htr2] at h
        rcases List.mem_append.mp h with h2 | h2
        · exact h2
        · simp at h2
      have h3 := mainBody_upload_tempKey env pref item target t sid now c0 p
        (hframe.1 ▸ hmem)
      have hqp : some q = some p := by rw [← hk, hframe.2, h3]
      injection hqp with hqp
      subst hqp
      rw [htr2]
      exact List.mem_append.mpr (Or.inr (by simp))
  · intro d2
    unfold runTransfer
    rw [finallyDelete_task, finallyDelete_task]

/-- Witness for C7: in the happy-path key-auth run the uploaded key is
deleted and the task is unaffected by the deletion outcome. -/
theorem c7_credential_cleanup_witness :
    TraceEv.deleteAttempt "/tmp/nexus_target_key_abc123" true
        ∈ (runTransfer envHappyKey true .auto itemA targetKey taskOneQueued 0 5 0).trace ∧
    (runTransfer envHappyKey false .auto itemA targetKey taskOneQueued 0 5 0).task
        = (runTransfer envHappyKey true .auto itemA targetKey taskOneQueued 0 5 0).task := by
  have h := c7_credential_cleanup envHappyKey true .auto itemA targetKey
    taskOneQueued 0 5 0 "/tmp/nexus_target_key_abc123" (by decide)
  exact ⟨h.1, h.2 false⟩

end Nexus

namespace Nexus

/-! ### Cancel contract lemmas (claim C6) -/

theorem getElem?_mem_list {l : List α} {i : Nat} {a : α}
    (h : l[i]? = some a) : a ∈ l := by
  obtain ⟨hlt, he⟩ := List.getElem?_eq_some.mp h
  exact he ▸ List.getElem_mem hlt

theorem getElem?_set_self_of_lt {l : List α} {j : Nat} {b : α}
    (h : j < l.length) : (l.set j b)[j]? = some b := by
  simp [List.getElem?_set_self', List.getElem?_eq_getElem h]

theorem set_eq_self_of_getElem? {l : List α} {j : Nat} {v : α}
    (h : l[j]? = some v) : l.set j v = l := by
  induction l generalizing j with
  | nil => rfl
  | cons x xs ih =>
    cases j with
    | zero =>
      have hxv : x = v := by simpa using h
      subst hxv
      rfl
    | succ n =>
      rw [List.set_cons_succ, ih (by simpa using h)]

theorem subTaskId_applyFields (ns : SubStatus) (prog : Option Int)
    (msg : Option String) (now : Nat) (st : SubTask) :
    (applyFields ns prog msg now st).subTaskId = st.subTaskId := by
  unfold applyFields
  cases prog <;> cases msg <;> dsimp only <;> split <;> rfl

/-- Under distinct keys, mutating the first key-match mutates exactly the
element's own index, and the search finds that element. -/
theorem updateFirst_eq_set (key : α → Nat) (f : α → α) (l : List α) (j : Nat)
    (a : α) (hnd : (l.map key).Nodup) (hj : l[j]? = some a) :
    updateFirst (fun x => key x == key a) f l = l.set j (f a) ∧
    l.find? (fun x => key x == key a) = some a := by
  induction l generalizing j with
  | nil => cases hj
  | cons x xs ih =>
    rw [List.map_cons, List.nodup_cons] at hnd
    cases j with
    | zero =>
      have hax : x = a := by simpa using hj
      subst hax
      refine ⟨?_, ?_⟩
      · simp [updateFirst]
      · exact List.find?_cons_of_pos _ (by simp)
    | succ n =>
      have hj2 : xs[n]? = some a := by simpa using hj
      have hkey : (key x == key a) = false := by
        have hmem : key a ∈ xs.map key :=
          List.mem_map_of_mem key (getElem?_mem_list hj2)
        simp only [beq_eq_false_iff_ne, ne_eq]
        intro hcontra
        exact hnd.1 (hcontra ▸ hmem)
      obtain ⟨h1, h2⟩ := ih n hnd.2 hj2
      refine ⟨?_, ?_⟩
      · simp only [updateFirst, hkey, Bool.false_eq_true, if_false,
          List.set_cons_succ]
        rw [h1]
      · rw [List.find?_cons_of_neg _ (by simp [hkey]), h2]

/-- The first key-match keeps matching after the mutation when the mutation
preserves the predicate on it. -/
theorem find?_updateFirst_pos (p : α → Bool) (f : α → α) (l : List α) (a : α)
    (hfind : l.find? p = some a) (hpf : p (f a) = true) :
    (updateFirst p f l).find? p = some (f a) := by
  induction l with
  | nil => cases hfind
  | cons x xs ih =>
    by_cases hp : p x = true
    · rw [List.find?_cons_of_pos _ hp] at hfind
      injection hfind with h2
      subst h2
      rw [show updateFirst p f (x :: xs) = f x :: xs from by simp [updateFirst, hp]]
      exact List.find?_cons_of_pos _ hpf
    · rw [List.find?_cons_of_neg _ hp] at hfind
      rw [show updateFirst p f (x :: xs) = x :: updateFirst p f xs from by
        simp [updateFirst, hp]]
      rw [List.find?_cons_of_neg _ hp]
      exact ih hfind

/-- Effect of one cancel-sweep iteration on the SubTask it targets. -/
theorem cancelSubStep_subTasks (now : Nat) (u : Task) (j : Nat) (a : SubTask)
    (hnd : (u.subTasks.map SubTask.subTaskId).Nodup)
    (hj : u.subTasks[j]? = some a) :
    (cancelSubStep now u a.subTaskId).subTasks
      = if subTerminal a.status then u.subTasks
        else u.subTasks.set j (cancelOne now a) := by
  obtain ⟨hset, hfind⟩ := updateFirst_eq_set SubTask.subTaskId
    (applyFields .cancelled a.progress
      (some "Cancelled due to parent task cancellation.") now)
    u.subTasks j a hnd hj
  unfold cancelSubStep
  rw [hfind]
  dsimp only
  by_cases ht : subTerminal a.status
  · rw [if_neg (by simpa using ht), if_pos ht]
  · rw [if_pos ht, if_neg ht]
    unfold updateSubTaskStatus
    rw [hfind]
    dsimp only
    rw [if_neg (by
      rintro ⟨hcf, -⟩
      rcases hcf with h1 | h1 <;> exact ht (by simp [subTerminal, h1]))]
    rw [subTasks_rollup]
    dsimp only
    exact hset

/-- The no-op case of one cancel-sweep iteration. -/
theorem cancelSubStep_terminal (now : Nat) (u : Task) (j : Nat) (a : SubTask)
    (hnd : (u.subTasks.map SubTask.subTaskId).Nodup)
    (hj : u.subTasks[j]? = some a) (ht : subTerminal a.status) :
    cancelSubStep now u a.subTaskId = u := by
  obtain ⟨-, hfind⟩ := updateFirst_eq_set SubTask.subTaskId
    (applyFields .cancelled a.progress
      (some "Cancelled due to parent task cancellation.") now)
    u.subTasks j a hnd hj
  unfold cancelSubStep
  rw [hfind]
  dsimp only
  rw [if_neg (by simpa using ht)]

/-- A cancel-sweep iteration never changes the SubTask identifier map. -/
theorem cancelSubStep_idsMap (now : Nat) (u : Task) (sid : Nat) :
    (cancelSubStep now u sid).subTasks.map SubTask.subTaskId
      = u.subTasks.map SubTask.subTaskId := by
  unfold cancelSubStep
  split
  · rfl
  · rename_i st hfindeq
    split
    · rcases updateSubTaskStatus_subTasks u sid .cancelled st.progress
        (some "Cancelled due to parent task cancellation.") now with h | ⟨h, -⟩
      · rw [h]
      · rw [h]
        exact map_updateFirst _ _ _ _
          (fun b _ => subTaskId_applyFields _ _ _ _ b)
    · rfl

/-- A cancel-sweep iteration keyed off-element leaves an index unchanged. -/
theorem cancelSubStep_other (now : Nat) (u : Task) (sid : Nat) (j : Nat)
    (a : SubTask) (hj : u.subTasks[j]? = some a) (hne : a.subTaskId ≠ sid) :
    (cancelSubStep now u sid).subTasks[j]? = some a := by
  unfold cancelSubStep
  split
  · exact hj
  · rename_i st hfindeq
    split
    · rcases updateSubTaskStatus_subTasks u sid .cancelled st.progress
        (some "Cancelled due to parent task cancellation.") now with h | ⟨h, -⟩
      · rw [h]; exact hj
      · rw [h]
        rcases getElem?_updateFirst (fun s => s.subTaskId == sid)
          (applyFields .cancelled st.progress
            (some "Cancelled due to parent task cancellation.") now)
          u.subTasks j with hsame | ⟨b, hb, hpb, -, -⟩
        · rw [hsame]; exact hj
        · rw [hb] at hj
          injection hj with hj2
          subst hj2
          exact absurd (by simpa using hpb) hne
    · exact hj

/-- Element-wise effect of the whole cancel sweep: every SubTask of the
task is rewritten by `cancelOne` exactly when it was non-terminal. -/
theorem cancelFold_getElem? (now : Nat) (ids : List Nat) : ∀ (u : Task),
    (u.subTasks.map SubTask.subTaskId).Nodup → ∀ (j : Nat) (a : SubTask),
    u.subTasks[j]? = some a →
    (ids.foldl (cancelSubStep now) u).subTasks[j]?
      = some (if a.subTaskId ∈ ids ∧ ¬ subTerminal a.status
              then cancelOne now a else a) := by
  induction ids with
  | nil =>
    intro u hnd j a hj
    simpa using hj
  | cons id0 rest ih =>
    intro u hnd j a hj
    simp only [List.foldl_cons]
    by_cases hid : id0 = a.subTaskId
    · subst hid
      by_cases ht : subTerminal a.status
      · rw [cancelSubStep_terminal now u j a hnd hj ht, ih u hnd j a hj]
        simp [ht]
      · have hlt : j < u.subTasks.length := (List.getElem?_eq_some.mp hj).1
        have hsubs : (cancelSubStep now u a.subTaskId).subTasks
            = u.subTasks.set j (cancelOne now a) := by
          rw [cancelSubStep_subTasks now u j a hnd hj, if_neg ht]
        have hmapj : (u.subTasks.map SubTask.subTaskId)[j]? = some a.subTaskId := by
          rw [List.getElem?_map, hj]
          rfl
        have hnd2 : ((cancelSubStep now u a.subTaskId).subTasks.map
            SubTask.subTaskId).Nodup := by
          rw [cancelSubStep_idsMap]
          exact hnd
        have hj2 : (cancelSubStep now u a.subTaskId).subTasks[j]?
            = some (cancelOne now a) := by
          rw [hsubs]
          exact getElem?_set_self_of_lt hlt
        rw [ih _ hnd2 j (cancelOne now a) hj2]
        have hterm2 : subTerminal (cancelOne now a).status := by
          unfold cancelOne
          rw [status_applyFields]
          simp [subTerminal]
        simp [hterm2, ht]
    · have hj2 : (cancelSubStep now u id0).subTasks[j]? = some a :=
        cancelSubStep_other now u id0 j a hj (fun h => hid h.symm)
      have hnd2 : ((cancelSubStep now u id0).subTasks.map SubTask.subTaskId).Nodup := by
        rw [cancelSubStep_idsMap]
        exact hnd
      rw [ih _ hnd2 j a hj2]
      have hcond : (a.subTaskId ∈ rest ∧ ¬ subTerminal a.status)
          ↔ (a.subTaskId ∈ id0 :: rest ∧ ¬ subTerminal a.status) := by
        constructor
        · rintro ⟨hm, hts⟩
          exact ⟨List.mem_cons.mpr (Or.inr hm), hts⟩
        · rintro ⟨hm, hts⟩
          rcases List.mem_cons.mp hm with he | hm2
          · exact absurd he.symm hid
          · exact ⟨hm2, hts⟩
      congr 1
      exact if_congr hcond rfl rfl

end Nexus

namespace Nexus

theorem taskId_rollup (t : Task) (now : Nat) :
    (updateOverallTaskStatusBasedOnSubTasks t now).taskId = t.taskId := by
  simp only [updateOverallTaskStatusBasedOnSubTasks]
  split <;> rfl

theorem taskId_updateOverallTaskStatus (t : Task) (ns : TaskStatus) (now : Nat) :
    (updateOverallTaskStatus t ns now).taskId = t.taskId := by
  simp only [updateOverallTaskStatus]
  split <;> rfl

theorem taskId_updateSubTaskStatus (t : Task) (sid : Nat) (ns : SubStatus)
    (prog : Option Int) (msg : Option String) (now : Nat) :
    (updateSubTaskStatus t sid ns prog msg now).taskId = t.taskId := by
  unfold updateSubTaskStatus
  split
  · rfl
  · split
    · rfl
    · rw [taskId_rollup]

theorem taskId_cancelSubStep (now : Nat) (t : Task) (sid : Nat) :
    (cancelSubStep now t sid).taskId = t.taskId := by
  unfold cancelSubStep
  split
  · rfl
  · split
    · rw [taskId_updateSubTaskStatus]
    · rfl

theorem taskId_cancelFold (now : Nat) (ids : List Nat) (t : Task) :
    (ids.foldl (cancelSubStep now) t).taskId = t.taskId := by
  induction ids generalizing t with
  | nil => rfl
  | cons x xs ih =>
    simp only [List.foldl_cons]
    rw [ih, taskId_cancelSubStep]

/-- Result of a successful `cancelTransferTask` spelled out. -/
theorem cancelTransferTask_eq (s : ServiceState) (tid uid now : Nat)
    (task : Task) (ctrl : Nat × Bool)
    (hf : s.tasks.find? (fun t => t.taskId == tid) = some task)
    (hu : task.userId = uid)
    (hc : s.controllers.find? (fun c => c.1 == tid) = some ctrl) :
    cancelTransferTask s tid uid now =
      ({ tasks := updateFirst (fun t => t.taskId == tid)
            (fun _ => cancelAllNonFinalSubs
              (if ¬ (task.status = .completed ∨ task.status = .failed ∨
                     task.status = .cancelled)
               then updateOverallTaskStatus task .cancelling now else task) now)
            s.tasks,
         controllers := updateFirst (fun c => c.1 == tid)
            (fun c => (c.1, true)) s.controllers }, true) := by
  unfold cancelTransferTask
  rw [hf]
  dsimp only
  rw [if_neg (by simp [hu]), hc]

/-- Claim C6 (amended): `cancelTransferTask` returns false iff the task is
unknown, not owned by the caller, or has no registered cancellation token;
on success it signals the token and rewrites every SubTask outside
{completed, failed, cancelled} to cancelled while leaving those terminal
SubTasks untouched (the task status itself ends as the rollup of the
resulting SubTask statuses, not necessarily `cancelling`). -/
theorem c6_cancel_contract_amended (s : ServiceState) (tid uid now : Nat)
    (hnd : ∀ t ∈ s.tasks, (t.subTasks.map SubTask.subTaskId).Nodup) :
    ((cancelTransferTask s tid uid now).2 = false ↔
      (s.tasks.find? (fun t => t.taskId == tid) = none ∨
       (∃ t, s.tasks.find? (fun t => t.taskId == tid) = some t ∧ t.userId ≠ uid) ∨
       s.controllers.find? (fun c => c.1 == tid) = none)) ∧
    (∀ (task : Task) (ctrl : Nat × Bool),
      s.tasks.find? (fun t => t.taskId == tid) = some task →
      task.userId = uid →
      s.controllers.find? (fun c => c.1 == tid) = some ctrl →
      (cancelTransferTask s tid uid now).2 = true ∧
      (cancelTransferTask s tid uid now).1.controllers.find?
          (fun c => c.1 == tid) = some (tid, true) ∧
      ∃ task2,
        (cancelTransferTask s tid uid now).1.tasks.find?
            (fun t => t.taskId == tid) = some task2 ∧
        ∀ (j : Nat) (a : SubTask), task.subTasks[j]? = some a →
          task2.subTasks[j]?
            = some (if subTerminal a.status then a else cancelOne now a)) := by
  constructor
  · constructor
    · intro hfalse
      by_contra hdisj
      push_neg at hdisj
      obtain ⟨h1, h2, h3⟩ := hdisj
      cases hfopt : s.tasks.find? (fun t => t.taskId == tid) with
      | none => exact h1 hfopt
      | some task =>
        have huid : task.userId = uid := h2 task hfopt
        cases hcopt : s.controllers.find? (fun c => c.1 == tid) with
        | none => exact h3 hcopt
        | some ctrl =>
          rw [cancelTransferTask_eq s tid uid now task ctrl hfopt huid hcopt]
            at hfalse
          cases hfalse
    · intro hdisj
      rcases hdisj with h | ⟨t0, hft, hne⟩ | h
      · unfold cancelTransferTask
        rw [h]
      · unfold cancelTransferTask
        rw [hft]
        dsimp only
        rw [if_pos hne]
      · cases hfopt : s.tasks.find? (fun t => t.taskId == tid) with
        | none =>
          unfold cancelTransferTask
          rw [hfopt]
        | some task =>
          unfold cancelTransferTask
          rw [hfopt]
          dsimp only
          by_cases hu2 : task.userId ≠ uid
          · rw [if_pos hu2]
          · rw [if_neg hu2, h]
  · intro task ctrl hf hu hc
    rw [cancelTransferTask_eq s tid uid now task ctrl hf hu hc]
    have hctrl_tid := List.find?_some hc
    have hctrl_eq : ctrl.1 = tid := by simpa using hctrl_tid
    refine ⟨rfl, ?_, ?_⟩
    · dsimp only
      rw [find?_updateFirst_pos (fun c => c.1 == tid) (fun c => (c.1, true))
        s.controllers ctrl hc (by simpa using hctrl_tid)]
      rw [hctrl_eq]
    · dsimp only
      have hsubs1 : (if ¬ (task.status = .completed ∨ task.status = .failed ∨
            task.status = .cancelled)
          then updateOverallTaskStatus task .cancelling now else task).subTasks
            = task.subTasks := by
        split
        · rw [subTasks_updateOverallTaskStatus]
        · rfl
      have htid1 : (if ¬ (task.status = .completed ∨ task.status = .failed ∨
            task.status = .cancelled)
          then updateOverallTaskStatus task .cancelling now else task).taskId
            = task.taskId := by
        split
        · rw [taskId_updateOverallTaskStatus]
        · rfl
      have htid2 : (cancelAllNonFinalSubs
          (if ¬ (task.status = .completed ∨ task.status = .failed ∨
                 task.status = .cancelled)
           then updateOverallTaskStatus task .cancelling now else task)
          now).taskId = task.taskId := by
        unfold cancelAllNonFinalSubs
        rw [taskId_cancelFold, htid1]
      have hptask := List.find?_some hf
      have htid3 : (cancelAllNonFinalSubs
          (if ¬ (task.status = .completed ∨ task.status = .failed ∨
                 task.status = .cancelled)
           then updateOverallTaskStatus task .cancelling now else task)
          now).taskId = tid := by
        rw [htid2]
        simpa using hptask
      refine ⟨_, find?_updateFirst_pos (fun t => t.taskId == tid) _ s.tasks task
        hf (by simpa using htid3), ?_⟩
      intro j a hja
      have hnd1 : ((if ¬ (task.status = .completed ∨ task.status = .failed ∨
            task.status = .cancelled)
          then updateOverallTaskStatus task .cancelling now else task).subTasks.map
            SubTask.subTaskId).Nodup := by
        rw [hsubs1]
        exact hnd task (List.mem_of_find?_eq_some hf)
      have hja1 : (if ¬ (task.status = .completed ∨ task.status = .failed ∨
            task.status = .cancelled)
          then updateOverallTaskStatus task .cancelling now else task).subTasks[j]?
            = some a := by
        rw [hsubs1]
        exact hja
      have hmem : a.subTaskId ∈ (if ¬ (task.status = .completed ∨
            task.status = .failed ∨ task.status = .cancelled)
          then updateOverallTaskStatus task .cancelling now
          else task).subTasks.map SubTask.subTaskId :=
        List.mem_map_of_mem _ (getElem?_mem_list hja1)
      unfold cancelAllNonFinalSubs
      rw [cancelFold_getElem? now _ _ hnd1 j a hja1]
      by_cases ht : subTerminal a.status
      · rw [if_neg (fun hcon => hcon.2 ht), if_pos ht]
      · rw [if_pos ⟨hmem, ht⟩, if_neg ht]

/-- Witness for C6 (amended): concrete registry with one owned task and a
live controller; cancel returns true, flips the token, and cancels the
queued SubTask. -/
theorem c6_cancel_contract_amended_witness :
    ((cancelTransferTask stateWithController 9 5 1).2 = false ↔
      (stateWithController.tasks.find? (fun t => t.taskId == 9) = none ∨
       (∃ t, stateWithController.tasks.find? (fun t => t.taskId == 9) = some t ∧
         t.userId ≠ 5) ∨
       stateWithController.controllers.find? (fun c => c.1 == 9) = none)) ∧
    (cancelTransferTask stateWithController 9 5 1).2 = true ∧
    (cancelTransferTask stateWithController 9 5 1).1.controllers.find?
        (fun c => c.1 == 9) = some (9, true) := by
  have h := c6_cancel_contract_amended stateWithController 9 5 1 (by decide)
  have h2 := h.2 taskOneQueued (9, false) (by decide) (by decide) (by decide)
  exact ⟨h.1, h2.1, h2.2.1⟩

end Nexus

namespace Nexus

/-! ### Scheduler counting lemmas (claim C8) -/

theorem countRunning_cons (x : SubSlot) (xs : List SubSlot) :
    countRunning (x :: xs)
      = (if x.phase = .running then 1 else 0) + countRunning xs := by
  unfold countRunning
  rw [List.filter_cons]
  split <;> (simp_all; try omega)

theorem countCT_cons (x : SubSlot) (xs : List SubSlot) :
    countCT (x :: xs)
      = (if x.status = .connecting ∨ x.status = .transferring then 1 else 0)
        + countCT xs := by
  unfold countCT
  rw [List.filter_cons]
  split <;> (simp_all; try omega)

theorem countCT_le_countRunning (subs : List SubSlot)
    (h : ∀ sl ∈ subs, (sl.status = .connecting ∨ sl.status = .transferring) →
      sl.phase = .running) :
    countCT subs ≤ countRunning subs := by
  induction subs with
  | nil => exact Nat.le_refl 0
  | cons x xs ih =>
    rw [countCT_cons, countRunning_cons]
    have hx := h x (List.mem_cons_self x xs)
    have hxs := ih (fun sl hm hct => h sl (List.mem_cons_of_mem x hm) hct)
    by_cases hct : x.status = .connecting ∨ x.status = .transferring
    · rw [if_pos hct, if_pos (hx hct)]
      omega
    · rw [if_neg hct]
      split <;> omega

theorem length_modifyAt (l : List α) (i : Nat) (f : α → α) :
    (modifyAt l i f).length = l.length := by
  induction l generalizing i with
  | nil => rfl
  | cons x xs ih =>
    cases i with
    | zero => rfl
    | succ n => simp [modifyAt, ih]

theorem getElem?_modifyAt (l : List α) (i j : Nat) (f : α → α) :
    (modifyAt l i f)[j]? = if i = j then (l[j]?).map f else l[j]? := by
  induction l generalizing i j with
  | nil =>
    cases i <;> cases j <;> simp [modifyAt]
  | cons x xs ih =>
    cases i with
    | zero =>
      cases j with
      | zero => simp [modifyAt]
      | succ m => simp [modifyAt]
    | succ n =>
      cases j with
      | zero => simp [modifyAt]
      | succ m => simpa [modifyAt] using ih n m

theorem countRunning_modifyAt (l : List SubSlot) (i : Nat)
    (f : SubSlot → SubSlot) (sl : SubSlot) (h : l[i]? = some sl) :
    countRunning (modifyAt l i f)
        + (if sl.phase = .running then 1 else 0)
      = countRunning l + (if (f sl).phase = .running then 1 else 0) := by
  induction l generalizing i with
  | nil => cases h
  | cons x xs ih =>
    cases i with
    | zero =>
      have hx : x = sl := by simpa using h
      subst hx
      show countRunning (f x :: xs) + _ = _
      rw [countRunning_cons, countRunning_cons]
      omega
    | succ n =>
      have h2 : xs[n]? = some sl := by simpa using h
      show countRunning (x :: modifyAt xs n f) + _ = _
      rw [countRunning_cons, countRunning_cons]
      have := ih n h2
      omega

theorem countRunning_map_phase (g : SubSlot → SubSlot)
    (hg : ∀ x, (g x).phase = x.phase) (l : List SubSlot) :
    countRunning (l.map g) = countRunning l := by
  induction l with
  | nil => rfl
  | cons x xs ih =>
    rw [List.map_cons, countRunning_cons, countRunning_cons, ih, hg]

theorem cancelSlots_phase (sl : SubSlot) :
    ((fun sl => if ¬ subTerminal sl.status then { sl with status := .cancelled }
      else sl) sl).phase = sl.phase := by
  dsimp only
  split <;> rfl

theorem length_cancelSlots (subs : List SubSlot) :
    (cancelSlots subs).length = subs.length := by
  simp [cancelSlots]

end Nexus

namespace Nexus

/-! ### Scheduler invariant preservation (claim C8) -/

theorem schedInv_trySettle (k : SettleKind) (s : Sched) (h : SchedInv s) :
    SchedInv (trySettle k s) := by
  unfold trySettle
  split
  · exact h
  · exact h

theorem schedInv_launchGo (fuel : Nat) : ∀ (s : Sched), SchedInv s →
    SchedInv (launchGo fuel s) := by
  induction fuel with
  | zero => intro s h; exact h
  | succ n ih =>
    intro s h
    obtain ⟨h1, h2, h3, h4, h5⟩ := h
    unfold launchGo
    split
    · rename_i hcond
      dsimp only
      split
      · -- already-cancelled SubTask: skip it
        have hs1 : SchedInv { s with nextIdx := s.nextIdx + 1 } := by
          refine ⟨h1, h2, hcond.2, ?_, h5⟩
          intro i sl hi hge
          dsimp only at hge
          exact h4 i sl hi (by omega)
        apply ih
        split
        · exact schedInv_trySettle _ _ hs1
        · exact hs1
      · -- launch the SubTask at the cursor
        apply ih
        have hslot : s.subs[s.nextIdx]? = some (s.subs.get ⟨s.nextIdx, hcond.2⟩) := by
          simp [List.getElem?_eq_getElem hcond.2]
        have hidle : (s.subs.get ⟨s.nextIdx, hcond.2⟩).phase = .idle :=
          h4 s.nextIdx _ hslot (Nat.le_refl _)
        have hcount := countRunning_modifyAt s.subs s.nextIdx
          (fun sl => { sl with phase := .running }) _ hslot
        simp only [hidle] at hcount
        simp at hcount
        refine ⟨?_, ?_, ?_, ?_, ?_⟩
        · show s.active + 1 = countRunning (modifyAt s.subs s.nextIdx _)
          omega
        · exact hcond.1
        · show s.nextIdx + 1 ≤ (modifyAt s.subs s.nextIdx _).length
          rw [length_modifyAt]
          omega
        · intro i sl hi hge
          dsimp only at hge
          show sl.phase = .idle
          rw [getElem?_modifyAt] at hi
          split at hi
          · rename_i heq
            omega
          · exact h4 i sl hi (by omega)
        · intro sl hm hct
          obtain ⟨i, hi⟩ := List.getElem?_of_mem hm
          rw [getElem?_modifyAt] at hi
          split at hi
          · cases hx : s.subs[i]? with
            | none => rw [hx] at hi; cases hi
            | some sl0 =>
              rw [hx] at hi
              injection hi with hi2
              subst hi2
              rfl
          · exact h5 sl (getElem?_mem_list hi) hct
    · exact ⟨h1, h2, h3, h4, h5⟩

theorem schedInv_launchNext (s : Sched) (h : SchedInv s) :
    SchedInv (launchNext s) := by
  unfold launchNext
  split
  · split
    · exact schedInv_trySettle _ _ h
    · exact h
  · dsimp only
    split
    · exact schedInv_trySettle _ _ (schedInv_launchGo _ _ h)
    · exact schedInv_launchGo _ _ h

theorem schedInv_cancelSlots (s2 : Sched) (h : SchedInv s2) :
    SchedInv { s2 with subs := cancelSlots s2.subs } := by
  obtain ⟨h1, h2, h3, h4, h5⟩ := h
  refine ⟨?_, h2, ?_, ?_, ?_⟩
  · show s2.active = countRunning (cancelSlots s2.subs)
    unfold cancelSlots
    rw [countRunning_map_phase _ cancelSlots_phase]
    exact h1
  · show s2.nextIdx ≤ (cancelSlots s2.subs).length
    rw [length_cancelSlots]
    exact h3
  · intro i sl hi hge
    unfold cancelSlots at hi
    rw [List.getElem?_map] at hi
    cases hx : s2.subs[i]? with
    | none => rw [hx] at hi; cases hi
    | some sl0 =>
      rw [hx] at hi
      injection hi with hi2
      subst hi2
      rw [cancelSlots_phase]
      exact h4 i sl0 hx hge
  · intro sl hm hct
    unfold cancelSlots at hm
    obtain ⟨sl0, hsl0, heq⟩ := List.mem_map.mp hm
    subst heq
    by_cases hterm : subTerminal sl0.status
    · rw [show (if ¬ subTerminal sl0.status then
          ({ sl0 with status := SubStatus.cancelled } : SubSlot) else sl0)
          = sl0 from by rw [if_neg (by simpa using hterm)]] at hct ⊢
      rcases hct with hc | hc <;>
        exact absurd hterm (by simp [subTerminal, hc])
    · rw [show (if ¬ subTerminal sl0.status then
          ({ sl0 with status := SubStatus.cancelled } : SubSlot) else sl0)
          = { sl0 with status := SubStatus.cancelled } from by
          rw [if_pos hterm]] at hct
      rcases hct with hc | hc <;> cases hc

theorem schedInv_abort (s : Sched) (h : SchedInv s) :
    SchedInv (abortEffect s) := by
  unfold abortEffect
  dsimp only
  split
  · exact schedInv_cancelSlots _ h
  · exact schedInv_cancelSlots _ h

theorem schedInv_wrapperUpdate (s : Sched) (i : Nat) (ns : SubStatus)
    (hrun : phaseAt s i = some .running) (h : SchedInv s) :
    SchedInv (wrapperUpdateEffect s i ns) := by
  obtain ⟨h1, h2, h3, h4, h5⟩ := h
  unfold wrapperUpdateEffect
  obtain ⟨sl0, hsl0⟩ : ∃ sl0, s.subs[i]? = some sl0 := by
    unfold phaseAt at hrun
    cases hx : s.subs[i]? with
    | none => rw [hx] at hrun; cases hrun
    | some sl0 => exact ⟨sl0, rfl⟩
  have hsl0run : sl0.phase = .running := by
    unfold phaseAt at hrun
    rw [hsl0] at hrun
    injection hrun with h2'
  have hcount := countRunning_modifyAt s.subs i
    (fun sl => { sl with status := guardedSet sl.status ns }) sl0 hsl0
  simp only [hsl0run] at hcount
  simp at hcount
  refine ⟨?_, h2, ?_, ?_, ?_⟩
  · show s.active = countRunning (modifyAt s.subs i _)
    rw [h1]
    omega
  · show s.nextIdx ≤ (modifyAt s.subs i _).length
    rw [length_modifyAt]
    exact h3
  · intro j sl hj hge
    rw [getElem?_modifyAt] at hj
    split at hj
    · rename_i heq
      subst heq
      rw [hsl0] at hj
      injection hj with hj2
      subst hj2
      exact absurd (h4 i sl0 hsl0 hge) (by rw [hsl0run]; exact fun hx => Phase.noConfusion hx)
    · exact h4 j sl hj hge
  · intro sl hm hct
    obtain ⟨j, hj⟩ := List.getElem?_of_mem hm
    rw [getElem?_modifyAt] at hj
    split at hj
    · rename_i heq
      subst heq
      rw [hsl0] at hj
      injection hj with hj2
      subst hj2
      exact hsl0run
    · exact h5 sl (getElem?_mem_list hj) hct

theorem schedInv_finish (s : Sched) (i : Nat)
    (hrun : phaseAt s i = some .running)
    (hterm : ∃ st, slotStatusAt s i = some st ∧ subTerminal st)
    (h : SchedInv s) : SchedInv (finishEffect s i) := by
  obtain ⟨h1, h2, h3, h4, h5⟩ := h
  obtain ⟨sl0, hsl0⟩ : ∃ sl0, s.subs[i]? = some sl0 := by
    unfold phaseAt at hrun
    cases hx : s.subs[i]? with
    | none => rw [hx] at hrun; cases hrun
    | some sl0 => exact ⟨sl0, rfl⟩
  have hsl0run : sl0.phase = .running := by
    unfold phaseAt at hrun
    rw [hsl0] at hrun
    injection hrun with h2'
  obtain ⟨st0, hst0, hst0term⟩ := hterm
  have hst0eq : sl0.status = st0 := by
    unfold slotStatusAt at hst0
    rw [hsl0] at hst0
    injection hst0 with h2'
  have hipos : 0 < countRunning s.subs := by
    unfold countRunning
    have : sl0 ∈ s.subs.filter (fun sl => decide (sl.phase = .running)) :=
      List.mem_filter.mpr ⟨getElem?_mem_list hsl0, by simp [hsl0run]⟩
    exact List.length_pos.mpr (fun he => by rw [he] at this; cases this)
  have hcount := countRunning_modifyAt s.subs i
    (fun sl => { sl with phase := .done }) sl0 hsl0
  simp only [hsl0run] at hcount
  simp at hcount
  have hs1 : SchedInv { s with
      subs := modifyAt s.subs i (fun sl => { sl with phase := .done }),
      active := s.active - 1 } := by
    refine ⟨?_, ?_, ?_, ?_, ?_⟩
    · show s.active - 1 = countRunning (modifyAt s.subs i _)
      omega
    · show s.active - 1 ≤ MAX_CONCURRENT_SUB_TASKS
      omega
    · show s.nextIdx ≤ (modifyAt s.subs i _).length
      rw [length_modifyAt]
      exact h3
    · intro j sl hj hge
      rw [getElem?_modifyAt] at hj
      split at hj
      · rename_i heq
        subst heq
        exact absurd (h4 i sl0 hsl0 hge)
          (by rw [hsl0run]; exact fun hx => Phase.noConfusion hx)
      · exact h4 j sl hj hge
    · intro sl hm hct
      obtain ⟨j, hj⟩ := List.getElem?_of_mem hm
      rw [getElem?_modifyAt] at hj
      split at hj
      · rename_i heq
        subst heq
        rw [hsl0] at hj
        injection hj with hj2
        subst hj2
        exfalso
        have hceq : sl0.status = .connecting ∨ sl0.status = .transferring := hct
        rw [hst0eq] at hceq
        rcases hceq with hc | hc <;> rw [hc] at hst0term <;>
          simp [subTerminal] at hst0term
      · exact h5 sl (getElem?_mem_list hj) hct
  unfold finishEffect
  dsimp only
  split
  · exact schedInv_trySettle _ _ hs1
  · split
    · exact schedInv_launchNext _ hs1
    · split
      · exact schedInv_trySettle _ _ hs1
      · exact hs1

theorem schedInv_step {s t : Sched} (hstep : SStep s t) (h : SchedInv s) :
    SchedInv t := by
  cases hstep with
  | abort hab => exact schedInv_abort _ h
  | update i ns hrun2 => exact schedInv_wrapperUpdate _ i ns hrun2 h
  | finish i hrun2 hterm2 => exact schedInv_finish _ i hrun2 hterm2 h

theorem schedInv_init (sts : List SubStatus) (ab : Bool)
    (hsts : ∀ st ∈ sts, st = .queued ∨ st = .cancelled) :
    SchedInv (initSched sts ab) := by
  unfold initSched
  have hbase : SchedInv
      { subs := sts.map (fun st => ⟨st, Phase.idle⟩), active := 0,
        nextIdx := 0, aborted := ab, listener := true, settled := none } := by
    refine ⟨?_, by simp [MAX_CONCURRENT_SUB_TASKS], by simp, ?_, ?_⟩
    · show 0 = countRunning (sts.map fun st => ⟨st, Phase.idle⟩)
      clear hsts
      induction sts with
      | nil => rfl
      | cons x xs ih => rw [List.map_cons, countRunning_cons]; simpa using ih
    · intro i sl hi hge
      rw [List.getElem?_map] at hi
      cases hx : sts[i]? with
      | none => rw [hx] at hi; cases hi
      | some st0 =>
        rw [hx] at hi
        injection hi with hi2
        subst hi2
        rfl
    · intro sl hm hct
      obtain ⟨st0, hst0, heq⟩ := List.mem_map.mp hm
      subst heq
      rcases hsts st0 hst0 with hq | hq <;> rcases hct with hc | hc <;>
        simp_all
  split
  · exact schedInv_trySettle _ _ hbase
  · split
    · exact schedInv_cancelSlots _ hbase
    · exact schedInv_launchNext _ hbase

end Nexus

namespace Nexus

/-- Claim C8: in every state reachable during the sub-task scheduling
phase, the number of SubTasks simultaneously in `connecting` or
`transferring` never exceeds the configured concurrency limit
`MAX_CONCURRENT_SUB_TASKS`, whose value is 5. -/
theorem c8_concurrency_bound (sts : List SubStatus) (ab : Bool) (s : Sched)
    (hsts : ∀ st ∈ sts, st = .queued ∨ st = .cancelled)
    (hreach : SchedReach (initSched sts ab) s) :
    countCT s.subs ≤ MAX_CONCURRENT_SUB_TASKS ∧ MAX_CONCURRENT_SUB_TASKS = 5 := by
  have hinv : SchedInv s := by
    induction hreach with
    | refl => exact schedInv_init sts ab hsts
    | tail hr hstep ih => exact schedInv_step hstep ih
  obtain ⟨h1, h2, -, -, h5⟩ := hinv
  exact ⟨le_trans (countCT_le_countRunning s.subs h5) (h1 ▸ h2), rfl⟩

/-- Witness for C8: the initial state for two queued SubTasks satisfies
the bound. -/
theorem c8_concurrency_bound_witness :
    countCT (initSched [SubStatus.queued, SubStatus.queued] false).subs
        ≤ MAX_CONCURRENT_SUB_TASKS ∧ MAX_CONCURRENT_SUB_TASKS = 5 :=
  c8_concurrency_bound [.queued, .queued] false _ (by decide) (SchedReach.refl _)

end Nexus
